import Mathlib

/-!
Verification development for the voucher/prize engine of the
`noviy_2026_bot` repository: a shallow embedding of the voucher ledger
(`src/api/vouchers.py`), the prize draw engine (`src/api/prizes.py`), the
Telegram reconciliation loop (`src/bot/schedulers/vouchers_sync.py`) and the
WebSocket broadcast fan-out (`src/api/app.py`), with theorems about the
properties the specification states.

Conventions of the embedding:
* database tables are association lists (`List` of rows);
* Python `int` is `Int` (counters may go negative through the admin
  endpoint), surrogate ids and timestamps are `Nat`;
* Python `float` (prize weights, `random.random()`) is `Rat`: the claims
  under study are about the selection logic, not about rounding;
* a FastAPI handler is a function `State → Except HTTPError (State × Out)`;
  raising `HTTPException` before `commit` rolls the session back, which the
  `Except.error` branch models by carrying no state;
* randomness (`random.random`, `random.randint`) is passed in as an
  explicit parameter or stream.
-/

namespace NoviyBot

/-- An HTTP error as raised by `HTTPException(status_code=..., detail=...)`. -/
structure HTTPError where
  status : Nat
  detail : String
deriving Repr, DecidableEq

instance {ε α : Type} [DecidableEq ε] [DecidableEq α] :
    DecidableEq (Except ε α) := fun a b =>
  match a, b with
  | .ok x, .ok y =>
    if h : x = y then isTrue (by rw [h])
    else isFalse (fun hc => by cases hc; exact h rfl)
  | .error e, .error f =>
    if h : e = f then isTrue (by rw [h])
    else isFalse (fun hc => by cases hc; exact h rfl)
  | .ok _, .error _ => isFalse (fun hc => by cases hc)
  | .error _, .ok _ => isFalse (fun hc => by cases hc)

/-- A row of the `vouchers` table (`api/db_sa.py`, class `Voucher`). -/
structure Voucher where
  id : Nat
  code : String
  user_id : Option Int
  issued_by : Option Int
  created_at : Nat
  used_at : Option Nat
  use_count : Int
  total_games : Int
deriving Repr, DecidableEq

/-- The vouchers table. -/
abbrev VoucherTable := List Voucher

/-- Replace the row with the given id (rows are keyed by primary key `id`). -/
def updateVoucher (vid : Nat) (v' : Voucher) (tbl : VoucherTable) : VoucherTable :=
  tbl.map (fun w => if w.id = vid then v' else w)

/-- `api/vouchers.py`, `play_game` (PUT `/slot/voucher/{voucher_id}/play`):
look up the voucher by id; 404 if absent; 400 if `use_count >= total_games`;
otherwise increment `use_count`, set `used_at = now`, commit and return the
updated row. -/
def play_game (now : Nat) (voucher_id : Nat) (tbl : VoucherTable) :
    Except HTTPError (VoucherTable × Voucher) :=
  match tbl.find? (fun v => v.id = voucher_id) with
  | none => .error ⟨404, "Voucher not found"⟩
  | some v =>
    if v.use_count ≥ v.total_games then
      .error ⟨400, "Voucher has no remaining games"⟩
    else
      let v' := { v with use_count := v.use_count + 1, used_at := some now }
      .ok (updateVoucher voucher_id v' tbl, v')

/-- Python's `str.strip()`: drop whitespace from both ends (implemented
over the character list so that it evaluates by kernel reduction). -/
def pyStrip (s : String) : String :=
  String.mk
    (((s.data.dropWhile Char.isWhitespace).reverse.dropWhile
        Char.isWhitespace).reverse)

/-- `api/vouchers.py`, `mark_voucher_used` (POST `/slot/voucher/used`,
deprecated): same increment keyed by `code` instead of `id`. -/
def mark_voucher_used (now : Nat) (code : String) (tbl : VoucherTable) :
    Except HTTPError (VoucherTable × Voucher) :=
  let c := pyStrip code
  if c = "" then .error ⟨422, "code is required"⟩
  else
    match tbl.find? (fun v => v.code = c) with
    | none => .error ⟨404, "Voucher not found"⟩
    | some v =>
      if v.use_count ≥ v.total_games then
        .error ⟨400, "Voucher has no remaining games"⟩
      else
        let v' := { v with use_count := v.use_count + 1, used_at := some now }
        .ok (updateVoucher v.id v' tbl, v')

/-- `api/vouchers.py`, `set_voucher_count` (PUT `/slot/voucher/{id}/count`):
adjust `total_games` by `add`, `decrease` or absolute `set`, in that priority
order; 404 if the voucher is absent. No floor against `use_count` is applied. -/
def set_voucher_count (voucher_id : Nat) (add decrease set : Option Int)
    (tbl : VoucherTable) : Except HTTPError (VoucherTable × Voucher) :=
  match tbl.find? (fun v => v.id = voucher_id) with
  | none => .error ⟨404, "Voucher not found"⟩
  | some v =>
    let v' :=
      match add with
      | some a => { v with total_games := v.total_games + a }
      | none =>
        match decrease with
        | some d => { v with total_games := v.total_games - d }
        | none =>
          match set with
          | some n => { v with total_games := n }
          | none => v
    .ok (updateVoucher voucher_id v' tbl, v')

/-- Lexicographic comparison on `Nat × Nat` sort keys, strict. -/
def keyLt (a b : Nat × Nat) : Bool :=
  a.1 < b.1 || (a.1 = b.1 && a.2 < b.2)

/-- `SELECT ... ORDER BY key ASC LIMIT 1`: the row whose sort key is
lexicographically least (ties impossible in practice since `id` is unique and
last in every key). -/
def selectMinBy (key : Voucher → Nat × Nat) : List Voucher → Option Voucher
  | [] => none
  | v :: vs =>
    match selectMinBy key vs with
    | none => some v
    | some w => if keyLt (key w) (key v) then some w else some v

/-- Sort key of the first reuse query: `ORDER BY created_at ASC, id ASC`. -/
def availKey (v : Voucher) : Nat × Nat := (v.created_at, v.id)

/-- Sort key of the second reuse query:
`ORDER BY used_at ASC NULLS FIRST, id ASC` (a NULL `used_at` sorts before
every timestamp). -/
def exhaustedKey (v : Voucher) : Nat × Nat :=
  (match v.used_at with | none => 0 | some t => t + 1, v.id)

/-- Filter of the first reuse query:
`user_id IS NULL AND use_count < total_games`. -/
def isAvailable (v : Voucher) : Bool :=
  v.user_id = none && v.use_count < v.total_games

/-- Filter of the second reuse query: `use_count >= total_games`. -/
def isExhausted (v : Voucher) : Bool :=
  v.use_count ≥ v.total_games

/-- `api/vouchers.py`, `_generate_code`: `f"{random.randint(0, 9999):04d}"` —
the 4-digit zero-padded decimal encoding of a draw from `0..9999`. -/
def _generate_code (r : Fin 10000) : String :=
  String.mk [Nat.digitChar (r.val / 1000 % 10), Nat.digitChar (r.val / 100 % 10),
             Nat.digitChar (r.val / 10 % 10), Nat.digitChar (r.val % 10)]

/-- Reset an existing voucher row for a new holder, as both reuse branches of
`_issue_voucher_for_user` do: reassign `user_id`, overwrite `issued_by` only
when given, zero `use_count`, set `total_games`, clear `used_at`. -/
def recycleVoucher (user_id : Int) (issued_by : Option Int) (total_games : Int)
    (v : Voucher) : Voucher :=
  { v with
    user_id := some user_id
    issued_by := match issued_by with | some ib => some ib | none => v.issued_by
    use_count := 0
    total_games := total_games
    used_at := none }

/-- The fresh-code loop of `_issue_voucher_for_user`: up to `fuel` (source:
9999) attempts, each drawing a code from the random stream `rand` at the
current attempt index; an attempt whose code collides with an existing row
hits the unique constraint (`IntegrityError`), rolls back and retries;
exhausting the budget raises 500. `newId` is the autoincrement id the insert
would allocate. -/
def freshVoucherLoop (user_id : Int) (issued_by : Option Int) (total_games : Int)
    (newId : Nat) (rand : Nat → Fin 10000) (attempt : Nat) :
    Nat → VoucherTable → Except HTTPError (VoucherTable × Voucher)
  | 0, _ => .error ⟨500, "Failed to generate unique voucher code"⟩
  | fuel + 1, tbl =>
    let code := _generate_code (rand attempt)
    if tbl.any (fun w => w.code = code) then
      freshVoucherLoop user_id issued_by total_games newId rand (attempt + 1) fuel tbl
    else
      let v : Voucher :=
        { id := newId, code := code, user_id := some user_id,
          issued_by := issued_by, created_at := 0, used_at := none,
          use_count := 0, total_games := total_games }
      .ok (tbl ++ [v], v)

/-- `api/vouchers.py`, `_issue_voucher_for_user`: reuse an available
non-exhausted voucher (oldest created first), else reuse an exhausted voucher
(oldest used first, NULLs first), else insert a fresh random code with at
most 9999 attempts. -/
def _issue_voucher_for_user (user_id : Int) (issued_by : Option Int)
    (total_games : Int) (newId : Nat) (rand : Nat → Fin 10000)
    (tbl : VoucherTable) : Except HTTPError (VoucherTable × Voucher) :=
  match selectMinBy availKey (tbl.filter isAvailable) with
  | some v =>
    let v' := recycleVoucher user_id issued_by total_games v
    .ok (updateVoucher v.id v' tbl, v')
  | none =>
    match selectMinBy exhaustedKey (tbl.filter isExhausted) with
    | some v =>
      let v' := recycleVoucher user_id issued_by total_games v
      .ok (updateVoucher v.id v' tbl, v')
    | none =>
      freshVoucherLoop user_id issued_by total_games newId rand 0 9999 tbl

/-! ## Prize draw engine (`src/api/prizes.py`) -/

/-- A prize definition row (`slot` table) as used by `api/prizes.py`:
`id`, a name and a selection `weight`. -/
structure Prize where
  id : Nat
  name : String
  weight : Rat
deriving Repr, DecidableEq

/-- A `prize_remaining` inventory row: `prize_id` (primary key) and the
non-spent stock `remaining`. -/
structure PrizeRemaining where
  prize_id : Nat
  remaining : Int
deriving Repr, DecidableEq

/-- A `prize_wins` audit row as inserted by `draw_prize`. -/
structure PrizeWin where
  user_id : Int
  prize_id : Nat
  won_at : Nat
deriving Repr, DecidableEq

/-- The state touched by the draw endpoint. -/
structure SlotState where
  vouchers : VoucherTable
  prizes : List Prize
  remainingTbl : List PrizeRemaining
  wins : List PrizeWin
deriving Repr, DecidableEq

/-- Response body of POST `/prizes/draw`. -/
structure PrizeDrawOut where
  user_id : Int
  prize : Prize
  won_at : Nat
deriving Repr, DecidableEq

/-- Python's `max(0, x)`, written as an `if` so it evaluates by kernel
reduction. -/
def pyMax0 (x : Rat) : Rat := if 0 ≤ x then x else 0

/-- The per-candidate weight of `_weighted_choice`:
`max(0.0, prize.weight) * max(0, remaining)`. -/
def prWeight (p : Prize) (r : PrizeRemaining) : Rat :=
  pyMax0 p.weight * pyMax0 (r.remaining : Rat)

/-- The executable clamp agrees with the order-theoretic `max`. -/
theorem pyMax0_eq_max (x : Rat) : pyMax0 x = max 0 x := by
  unfold pyMax0
  rcases le_or_lt 0 x with h | h
  · rw [if_pos h, max_eq_right h]
  · rw [if_neg (not_le.mpr h), max_eq_left (le_of_lt h)]

/-- The cumulative walk of `_weighted_choice`: `acc += w; if pick <= acc:
return pair`, with accumulator `acc` threaded explicitly; `none` when the
list is exhausted without a hit. -/
def walkCumulative (pick : Rat) :
    Rat → List ((Prize × PrizeRemaining) × Rat) → Option (Prize × PrizeRemaining)
  | _, [] => none
  | acc, (pair, w) :: rest =>
    if pick ≤ acc + w then some pair else walkCumulative pick (acc + w) rest

/-- `api/prizes.py`, `_weighted_choice`: weights are
`max(0, weight) * max(0, remaining)`; when the total is `<= 0` fall back to
the uniform index `int(u * len(items))`; otherwise walk cumulative weights
against `pick = u * total` and return the first hit, or the last item if the
walk falls through. `u` stands for `random.random()`. Returns `none` exactly
where the Python code would raise `IndexError` (empty input). -/
def _weighted_choice (u : Rat) (items : List (Prize × PrizeRemaining)) :
    Option (Prize × PrizeRemaining) :=
  let weights := items.map (fun pr => prWeight pr.1 pr.2)
  let total := weights.sum
  if total ≤ 0 then items.get? (u * (items.length : Rat)).floor.toNat
  else
    match walkCumulative (u * total) 0 (items.zip weights) with
    | some pair => some pair
    | none => items.getLast?

/-- The candidate set of the draw: inventory rows with `remaining > 0`
joined to their prize definitions
(`select(Prize, PrizeRemaining).join(...).where(remaining > 0)`). -/
def candidateRows (st : SlotState) : List (Prize × PrizeRemaining) :=
  st.remainingTbl.filterMap (fun r =>
    if r.remaining > 0 then
      (st.prizes.find? (fun p => p.id = r.prize_id)).map (fun p => (p, r))
    else none)

/-- Decrement `remaining` of the first inventory row with the given primary
key (`rem_row.remaining = rem_row.remaining - 1` on the row `s.get`
returned). -/
def decRemaining (pid : Nat) : List PrizeRemaining → List PrizeRemaining
  | [] => []
  | r :: rs =>
    if r.prize_id = pid then { r with remaining := r.remaining - 1 } :: rs
    else r :: decRemaining pid rs

/-- `api/prizes.py`, `draw_prize` (POST `/prizes/draw`): validate and lock
the voucher, build the candidate set (inventory rows with `remaining > 0`
joined to their prizes), make the weighted choice, re-check the chosen row
by primary key, decrement-or-delete it, record the win and stamp the
voucher; every failure raises before `commit`, so the `error` branches carry
no state. `u` is the `random.random()` draw. -/
def draw_prize (u : Rat) (now : Nat) (voucherCode : String) (st : SlotState) :
    Except HTTPError (SlotState × PrizeDrawOut) :=
  let code := pyStrip voucherCode
  if code = "" then .error ⟨422, "voucher is required"⟩
  else
    match st.vouchers.find? (fun v => v.code = code) with
    | none => .error ⟨404, "Voucher not found"⟩
    | some v =>
      if v.used_at ≠ none then .error ⟨409, "Voucher already used"⟩
      else
        match v.user_id with
        | none => .error ⟨500, "Internal Server Error"⟩
        | some user_id =>
          let rows := candidateRows st
          if rows.isEmpty then .error ⟨409, "No prizes remaining"⟩
          else
            match _weighted_choice u rows with
            | none => .error ⟨500, "Internal Server Error"⟩
            | some (prize, rem) =>
              match st.remainingTbl.find? (fun r2 => r2.prize_id = rem.prize_id) with
              | none => .error ⟨409, "Prize just ran out, retry"⟩
              | some rem_row =>
                if rem_row.remaining ≤ 0 then
                  .error ⟨409, "Prize just ran out, retry"⟩
                else
                  let remainingTbl' :=
                    if rem_row.remaining ≤ 1 then
                      st.remainingTbl.eraseP (fun r2 => r2.prize_id = rem.prize_id)
                    else decRemaining rem.prize_id st.remainingTbl
                  let win : PrizeWin :=
                    { user_id := user_id, prize_id := prize.id, won_at := now }
                  let v' := { v with used_at := some now }
                  .ok ({ st with
                          vouchers := updateVoucher v.id v' st.vouchers,
                          remainingTbl := remainingTbl',
                          wins := st.wins ++ [win] },
                       { user_id := user_id, prize := prize, won_at := now })

/-! ## WebSocket broadcast fan-out (`src/api/app.py`) -/

/-- The in-memory player controller as far as the broadcast is concerned:
the live subscriber set (handles stand in for `WebSocket` objects) and the
state version counter. -/
structure PlayerCtrl where
  clients : List Nat
  version : Nat
deriving Repr, DecidableEq

/-- `api/app.py`, `_broadcast_player_state`: optionally bump the version,
then attempt `ws.send_json(payload)` to every client in `list(ctrl.clients)`;
each client whose send raises is collected into `dead` and discarded from
the live set afterwards. `sendOk ws` models whether the send to `ws`
succeeds. Returns the new controller and the list of clients a send was
attempted to. -/
def _broadcast_player_state (sendOk : Nat → Bool) (bump : Bool) (c : PlayerCtrl) :
    PlayerCtrl × List Nat :=
  let c1 := if bump then { c with version := c.version + 1 } else c
  let attempted := c1.clients
  let dead := attempted.filter (fun ws => !(sendOk ws))
  ({ c1 with clients := c1.clients.filter (fun ws => !(dead.contains ws)) },
   attempted)

/-! ## Reconciliation loop (`src/bot/schedulers/vouchers_sync.py`)

One iteration of `run_voucher_sync`: Pass A (cleanup/retraction over the
per-user voucher-state settings keys) followed by Pass B (delivery of new
vouchers). The settings store holds, per user, the JSON list of
`{code, message_id}` entries for messages already sent; it is modelled as an
association list from user id to entry list. API lookups are modelled as
succeeding (the `ApiError` keep-and-retry branches are outside the claims
under study); Telegram calls are modelled through the environment. -/

/-- One `{code, message_id}` element of a voucher-state settings value. -/
structure VEntry where
  code : String
  message_id : Int
deriving Repr, DecidableEq

/-- The external world of one sync iteration: whether `bot.send_photo`
succeeds for a (user, code), which message id a successful send returns, and
whether `bot.delete_message` succeeds for a (chat, message). -/
structure SyncEnv where
  sendOk : Int → String → Bool
  newMsgId : Int → String → Int
  deleteOk : Int → Int → Bool

/-- Durable state seen by the loop: the settings store and the vouchers
table (the loop itself never writes vouchers). -/
structure SyncState where
  settings : List (Int × List VEntry)
  vouchers : VoucherTable
deriving Repr, DecidableEq

/-- Externally visible actions of one iteration: photo sends attempted
(user, code), message deletions attempted (chat, message, outcome), settings
values written, settings keys deleted. -/
structure SyncEffects where
  sends : List (Int × String)
  msgDeletes : List (Int × Int × Bool)
  settingsSets : List (Int × List VEntry)
  settingsDels : List Int
deriving Repr, DecidableEq

/-- Value stored under a user's voucher-state key (`[]` when absent). -/
def settingsGet (settings : List (Int × List VEntry)) (uid : Int) : List VEntry :=
  match settings.find? (fun kv => kv.1 = uid) with
  | some kv => kv.2
  | none => []

/-- Write a user's voucher-state value (update in place, insert if new). -/
def settingsSet (uid : Int) (es : List VEntry)
    (settings : List (Int × List VEntry)) : List (Int × List VEntry) :=
  if settings.any (fun kv => kv.1 = uid) then
    settings.map (fun kv => if kv.1 = uid then (uid, es) else kv)
  else settings ++ [(uid, es)]

/-- Delete a user's voucher-state key. -/
def settingsDel (uid : Int) (settings : List (Int × List VEntry)) :
    List (Int × List VEntry) :=
  settings.filter (fun kv => !(kv.1 = uid : Bool))

/-- `GET /slot/voucher?code=...&user_id=...` as the sync loop uses it: the
list endpoint filters on both fields, orders by `id` descending and the loop
takes element 0. -/
def selectMaxById : List Voucher → Option Voucher
  | [] => none
  | v :: vs =>
    match selectMaxById vs with
    | none => some v
    | some w => if w.id > v.id then some w else some v

/-- Voucher lookup by `(code, user_id)` used by Pass A. -/
def lookupVoucher (tbl : VoucherTable) (code : String) (uid : Int) : Option Voucher :=
  selectMaxById (tbl.filter (fun v => v.code = code && v.user_id = some uid))

/-- What Pass A decides for one tracked entry: drop it silently (invalid or
voucher gone), retract the chat message and drop it (voucher exhausted), or
keep it (voucher still active). -/
inductive EntryAction where
  | drop
  | retract (message_id : Int)
  | keep
deriving Repr, DecidableEq

/-- Python's `int(x or 1)` defaulting applied by the cleanup loop when it
parses a voucher's `total_games`: a stored 0 is falsy and becomes 1; every
other integer (negative included, being truthy) is kept as is. -/
def orOne (x : Int) : Int := if x = 0 then 1 else x

/-- The per-entry decision of Pass A (`run_voucher_sync`, cleanup section):
entries with a blank code or non-positive message id are skipped (dropped);
a missing voucher drops the entry; the loop then parses the counters as
`int(... or 0)` for `use_count` (the identity on an integer field) and
`int(... or 1)` for `total_games`, and a voucher exhausted under that
parse (`use_count >= orOne total_games`) retracts the message and drops
the entry; an active voucher keeps it. -/
def entryAction (tbl : VoucherTable) (uid : Int) (e : VEntry) : EntryAction :=
  let code := pyStrip e.code
  if code = "" || e.message_id ≤ 0 then .drop
  else
    match lookupVoucher tbl code uid with
    | none => .drop
    | some v =>
      if v.use_count ≥ orOne v.total_games then .retract e.message_id
      else .keep

/-- Pass A over the entries of one user key: returns the entries kept
(`remaining`) and the message-deletion attempts made; the deletion outcome
(`env.deleteOk`) is recorded but never consulted. -/
def passAEntries (env : SyncEnv) (tbl : VoucherTable) (uid : Int) :
    List VEntry → List VEntry × List (Int × Int × Bool)
  | [] => ([], [])
  | e :: es =>
    let (rem, dels) := passAEntries env tbl uid es
    match entryAction tbl uid e with
    | .drop => (rem, dels)
    | .retract mid => (rem, (uid, mid, env.deleteOk uid mid) :: dels)
    | .keep => (e :: rem, dels)

/-- Pass A over the snapshot of voucher-state keys: a key with no stored
state is skipped; a key with an empty code list is deleted; otherwise the
entries are filtered through `passAEntries` and the result is persisted —
the key is deleted when nothing remains and rewritten (unconditionally)
otherwise. Returns the final settings plus the deletion attempts, the
settings writes and the settings-key deletions performed. -/
def passA (env : SyncEnv) (tbl : VoucherTable) :
    List Int → List (Int × List VEntry) →
    List (Int × List VEntry) × List (Int × Int × Bool) ×
      List (Int × List VEntry) × List Int
  | [], settings => (settings, [], [], [])
  | uid :: keys, settings =>
    match settings.find? (fun kv => kv.1 = uid) with
    | none => passA env tbl keys settings
    | some kv =>
      if kv.2.isEmpty then
        let (s', d, w, k) := passA env tbl keys (settingsDel uid settings)
        (s', d, w, uid :: k)
      else
        let (rem, dels) := passAEntries env tbl uid kv.2
        if rem.isEmpty then
          let (s', d, w, k) := passA env tbl keys (settingsDel uid settings)
          (s', dels ++ d, w, uid :: k)
        else
          let (s', d, w, k) := passA env tbl keys (settingsSet uid rem settings)
          (s', dels ++ d, (uid, rem) :: w, k)

/-- Insertion step for the id-descending order of the voucher list
endpoint. -/
def insertByIdDesc (v : Voucher) : List Voucher → List Voucher
  | [] => [v]
  | w :: ws => if v.id ≥ w.id then v :: w :: ws else w :: insertByIdDesc v ws

/-- `GET /slot/voucher?active_only=1` ordering: id descending. -/
def sortByIdDesc (l : List Voucher) : List Voucher :=
  l.foldr insertByIdDesc []

/-- Pass B (delivery) over the active-voucher list: vouchers without a
holder or with a blank code are skipped; a code already present in the
user's tracked entries is skipped; otherwise a send is attempted, and on
success the new entry is merged into the user's state and persisted.
Returns the final settings, the send attempts and the settings writes. -/
def passB (env : SyncEnv) :
    List Voucher → List (Int × List VEntry) →
    List (Int × List VEntry) × List (Int × String) × List (Int × List VEntry)
  | [], settings => (settings, [], [])
  | v :: vs, settings =>
    match v.user_id with
    | none => passB env vs settings
    | some uid =>
      let code := pyStrip v.code
      if code = "" then passB env vs settings
      else
        let prev := settingsGet settings uid
        if prev.any (fun e => pyStrip e.code = code) then passB env vs settings
        else if env.sendOk uid code then
          let merged := prev ++ [⟨code, env.newMsgId uid code⟩]
          let (s', sends, writes) := passB env vs (settingsSet uid merged settings)
          (s', (uid, code) :: sends, (uid, merged) :: writes)
        else
          let (s', sends, writes) := passB env vs settings
          (s', (uid, code) :: sends, writes)

/-- One full iteration of `run_voucher_sync`: snapshot the voucher-state
keys, run Pass A (retraction), then run Pass B (delivery) over the active
vouchers. The vouchers table is read-only for the loop. -/
def run_voucher_sync_once (env : SyncEnv) (st : SyncState) :
    SyncState × SyncEffects :=
  let keys := st.settings.map Prod.fst
  let (s1, dels, aSets, aDels) := passA env st.vouchers keys st.settings
  let active :=
    sortByIdDesc (st.vouchers.filter (fun v => v.use_count < v.total_games))
  let (s2, sends, bSets) := passB env active s1
  ({ settings := s2, vouchers := st.vouchers },
   { sends := sends, msgDeletes := dels, settingsSets := aSets ++ bSets,
     settingsDels := aDels })

/-- Concrete voucher used by witnesses: id 1, code "0001", held by user 42,
no game played yet, two games of capacity. -/
def wv1 : Voucher :=
  { id := 1, code := "0001", user_id := some 42, issued_by := none,
    created_at := 0, used_at := none, use_count := 0, total_games := 2 }


/-- The spec's per-voucher invariant: `0 ≤ use_count ≤ total_games`. -/
def voucherInvariant (v : Voucher) : Prop :=
  0 ≤ v.use_count ∧ v.use_count ≤ v.total_games

instance (v : Voucher) : Decidable (voucherInvariant v) := by
  unfold voucherInvariant; infer_instance

/-- The invariant over a whole table. -/
def tableInvariant (tbl : VoucherTable) : Prop :=
  ∀ v ∈ tbl, voucherInvariant v

instance (tbl : VoucherTable) : Decidable (tableInvariant tbl) := by
  unfold tableInvariant; infer_instance

/-- Scenario driver for the spec's round-trip property: run `play_game` on
the same voucher id `n` times in sequence, threading the table; stops at the
first error. -/
def playSeq (now vid : Nat) : Nat → VoucherTable → Except HTTPError VoucherTable
  | 0, tbl => .ok tbl
  | n + 1, tbl =>
    match play_game now vid tbl with
    | .ok (tbl', _) => playSeq now vid n tbl'
    | .error e => .error e

/-- Prefix sums of the candidate weights of `_weighted_choice`: the
cumulative weight after the first `k` candidates. -/
def cumWeight (items : List (Prize × PrizeRemaining)) (k : Nat) : Rat :=
  ((items.map (fun pr => prWeight pr.1 pr.2)).take k).sum

/-- A well-formed tracked key: a nonempty entry list all of whose entries
Pass A would keep (their vouchers are present and active). -/
def keyClean (tbl : VoucherTable) (kv : Int × List VEntry) : Prop :=
  kv.2 ≠ [] ∧ ∀ e ∈ kv.2, entryAction tbl kv.1 e = .keep

/-! ## Theorems -/

/-- C1: `PlayGame` (PUT `/voucher/{id}/play`) on an existing voucher with
`use_count < total_games` increments `use_count` by exactly one, stamps
`used_at` with the current time and returns the updated voucher; a missing
id yields the 404 error; an exhausted voucher (`use_count >= total_games`)
yields the 400 "no remaining games" error — and an error result carries no
state in this embedding, matching the session rollback, so the voucher is
left unchanged. -/
theorem C1_play_game (now vid : Nat) (tbl : VoucherTable) :
    (tbl.find? (fun v => v.id = vid) = none →
      play_game now vid tbl = .error ⟨404, "Voucher not found"⟩) ∧
    (∀ v, tbl.find? (fun w => w.id = vid) = some v →
      (v.use_count < v.total_games →
        play_game now vid tbl =
          .ok (updateVoucher vid
                { v with use_count := v.use_count + 1, used_at := some now } tbl,
              { v with use_count := v.use_count + 1, used_at := some now })) ∧
      (v.use_count ≥ v.total_games →
        play_game now vid tbl =
          .error ⟨400, "Voucher has no remaining games"⟩)) := by
  refine ⟨fun h => ?_, fun v hv => ⟨fun hlt => ?_, fun hge => ?_⟩⟩
  · simp only [play_game, h]
  · simp only [play_game, hv]
    rw [if_neg (not_le.mpr hlt)]
  · simp only [play_game, hv]
    rw [if_pos hge]

/-- Witness for C1 at a concrete input: playing voucher 1 of the singleton
table succeeds and increments the counter; playing a missing id 2 gives
404. -/
theorem C1_play_game_witness :
    play_game 5 1 [wv1] =
      .ok (updateVoucher 1
            { wv1 with use_count := wv1.use_count + 1, used_at := some 5 } [wv1],
          { wv1 with use_count := wv1.use_count + 1, used_at := some 5 }) ∧
    play_game 5 2 [wv1] = .error ⟨404, "Voucher not found"⟩ :=
  ⟨((C1_play_game 5 1 [wv1]).2 wv1 (by decide)).1 (by decide),
   (C1_play_game 5 2 [wv1]).1 (by decide)⟩

/-- The broadcast attempts delivery to exactly the current client list. -/
theorem broadcast_attempted (sendOk : Nat → Bool) (bump : Bool) (c : PlayerCtrl) :
    (_broadcast_player_state sendOk bump c).2 = c.clients := by
  cases bump <;> rfl

/-- Membership in the live set after a broadcast: a client survives iff it
was live and its send succeeded. -/
theorem broadcast_clients_mem (sendOk : Nat → Bool) (bump : Bool)
    (c : PlayerCtrl) (ws : Nat) :
    ws ∈ ((_broadcast_player_state sendOk bump c).1).clients ↔
      ws ∈ c.clients ∧ sendOk ws = true := by
  have hcl : (if bump then { c with version := c.version + 1 } else c).clients
      = c.clients := by cases bump <;> rfl
  unfold _broadcast_player_state
  simp only [hcl, List.mem_filter, List.contains, List.elem_eq_mem,
    Bool.not_eq_true', decide_eq_false_iff_not, Bool.not_eq_false]
  constructor
  · rintro ⟨hmem, hdead⟩
    refine ⟨hmem, ?_⟩
    cases hok : sendOk ws
    · exact absurd ⟨hmem, hok⟩ hdead
    · rfl
  · rintro ⟨hmem, hok⟩
    exact ⟨hmem, fun hdead => by simp [hok] at hdead⟩

/-- C9: during one broadcast a send is attempted to every live subscriber;
every subscriber whose send raises is evicted from the live set after that
single failed attempt and the following broadcast does not attempt to send
to it; every subscriber whose send succeeds stays in the set. -/
theorem C9_broadcast_eviction (sendOk sendOk2 : Nat → Bool) (bump bump2 : Bool)
    (c : PlayerCtrl) (ws : Nat) (h : ws ∈ c.clients) :
    ws ∈ (_broadcast_player_state sendOk bump c).2 ∧
    (sendOk ws = false →
      ws ∉ ((_broadcast_player_state sendOk bump c).1).clients ∧
      ws ∉ (_broadcast_player_state sendOk2 bump2
              ((_broadcast_player_state sendOk bump c).1)).2) ∧
    (sendOk ws = true →
      ws ∈ ((_broadcast_player_state sendOk bump c).1).clients) := by
  refine ⟨?_, fun hfail => ⟨?_, ?_⟩, fun hok => ?_⟩
  · rw [broadcast_attempted]; exact h
  · rw [broadcast_clients_mem]
    rintro ⟨-, hok⟩
    simp [hok] at hfail
  · rw [broadcast_attempted, broadcast_clients_mem]
    rintro ⟨-, hok⟩
    simp [hok] at hfail
  · rw [broadcast_clients_mem]; exact ⟨h, hok⟩

/-- Witness for C9: with clients `[1, 2]` and sends failing exactly for
client 1, client 1 is attempted once, evicted, and not attempted by the
second broadcast, while client 2 survives. -/
theorem C9_broadcast_eviction_witness :
    (1 : Nat) ∈ (_broadcast_player_state (fun w => w = 2) true ⟨[1, 2], 0⟩).2 ∧
    ((fun w : Nat => (w = 2 : Bool)) 1 = false →
      (1 : Nat) ∉ ((_broadcast_player_state (fun w => w = 2) true ⟨[1, 2], 0⟩).1).clients ∧
      (1 : Nat) ∉ (_broadcast_player_state (fun w => w = 2) false
          ((_broadcast_player_state (fun w => w = 2) true ⟨[1, 2], 0⟩).1)).2) ∧
    ((fun w : Nat => (w = 2 : Bool)) 1 = true →
      (1 : Nat) ∈ ((_broadcast_player_state (fun w => w = 2) true ⟨[1, 2], 0⟩).1).clients) :=
  C9_broadcast_eviction (fun w => w = 2) (fun w => w = 2) true false
    ⟨[1, 2], 0⟩ 1 (by decide)

/-- `Nat.digitChar` of a value below ten is a decimal digit. -/
theorem digitChar_isDigit {n : Nat} (h : n < 10) :
    (Nat.digitChar n).isDigit = true := by
  interval_cases n <;> rfl

/-- The fresh-code loop raises the 500 error when every attempt collides. -/
theorem freshLoop_all_collide (uid : Int) (ib : Option Int) (g : Int)
    (nid : Nat) (rand : Nat → Fin 10000) (tbl : VoucherTable)
    (h : ∀ k, tbl.any (fun w => w.code = _generate_code (rand k)) = true) :
    ∀ fuel attempt,
      freshVoucherLoop uid ib g nid rand attempt fuel tbl =
        .error ⟨500, "Failed to generate unique voucher code"⟩ := by
  intro fuel
  induction fuel with
  | zero => intro attempt; rfl
  | succ n ih =>
    intro attempt
    simp only [freshVoucherLoop, h attempt, if_true]
    exact ih (attempt + 1)

/-- The fresh-code loop reads at most `fuel` values of the random stream:
streams agreeing on the consulted window give identical outcomes. -/
theorem freshLoop_congr (uid : Int) (ib : Option Int) (g : Int) (nid : Nat)
    (rand rand2 : Nat → Fin 10000) (tbl : VoucherTable) :
    ∀ fuel attempt, (∀ k, attempt ≤ k → k < attempt + fuel → rand k = rand2 k) →
      freshVoucherLoop uid ib g nid rand attempt fuel tbl =
        freshVoucherLoop uid ib g nid rand2 attempt fuel tbl := by
  intro fuel
  induction fuel with
  | zero => intro attempt _; rfl
  | succ n ih =>
    intro attempt h
    have hk : rand attempt = rand2 attempt := h attempt le_rfl (by omega)
    simp only [freshVoucherLoop, hk]
    split
    · exact ih (attempt + 1) (fun k h1 h2 => h k (by omega) (by omega))
    · rfl

/-- C10: every generated voucher code is exactly a 4-character decimal
string, so the whole code space has at most 10000 distinct codes, and
new-voucher creation performs at most 9999 generation attempts — if every
one of the first 9999 stream values collides it gives up with the 500
failure response, and its outcome never depends on the stream beyond index
9998. -/
theorem C10_code_space (r : Fin 10000) (tbl : VoucherTable) (uid : Int)
    (ib : Option Int) (g : Int) (nid : Nat) (rand rand2 : Nat → Fin 10000) :
    (_generate_code r).length = 4 ∧
    (∀ ch ∈ (_generate_code r).data, ch.isDigit = true) ∧
    (Finset.univ.image _generate_code).card ≤ 10000 ∧
    ((∀ k, tbl.any (fun w => w.code = _generate_code (rand k)) = true) →
      freshVoucherLoop uid ib g nid rand 0 9999 tbl =
        .error ⟨500, "Failed to generate unique voucher code"⟩) ∧
    ((∀ k, k < 9999 → rand k = rand2 k) →
      freshVoucherLoop uid ib g nid rand 0 9999 tbl =
        freshVoucherLoop uid ib g nid rand2 0 9999 tbl) := by
  refine ⟨rfl, ?_, ?_, ?_, ?_⟩
  · intro ch hch
    simp only [_generate_code, List.mem_cons, List.not_mem_nil, or_false] at hch
    rcases hch with h | h | h | h
    all_goals subst h; exact digitChar_isDigit (Nat.mod_lt _ (by omega))
  · calc (Finset.univ.image _generate_code).card
        ≤ (Finset.univ : Finset (Fin 10000)).card := Finset.card_image_le
      _ = 10000 := by rw [Finset.card_univ, Fintype.card_fin]
  · intro h
    exact freshLoop_all_collide uid ib g nid rand tbl h 9999 0
  · intro h
    exact freshLoop_congr uid ib g nid rand rand2 tbl 9999 0
      (fun k h1 h2 => h k (by omega))

/-- Witness for C10: with a table already holding code "0000" and the
constant stream returning 0, the loop gives up with the 500 error, and a
pointwise-equal stream gives the same outcome. -/
theorem C10_code_space_witness :
    freshVoucherLoop 42 none 1 2 (fun _ => (0 : Fin 10000)) 0 9999
        [{ wv1 with code := "0000" }] =
      .error ⟨500, "Failed to generate unique voucher code"⟩ ∧
    freshVoucherLoop 42 none 1 2 (fun _ => (0 : Fin 10000)) 0 9999
        [{ wv1 with code := "0000" }] =
      freshVoucherLoop 42 none 1 2 (fun _ => (0 : Fin 10000)) 0 9999
        [{ wv1 with code := "0000" }] ∧
    (∀ ch ∈ (_generate_code (0 : Fin 10000)).data, ch.isDigit = true) :=
  ⟨(C10_code_space 0 [{ wv1 with code := "0000" }] 42 none 1 2
      (fun _ => 0) (fun _ => 0)).2.2.2.1 (fun k => by decide),
   (C10_code_space 0 [{ wv1 with code := "0000" }] 42 none 1 2
      (fun _ => 0) (fun _ => 0)).2.2.2.2 (fun k _ => rfl),
   (C10_code_space 0 [{ wv1 with code := "0000" }] 42 none 1 2
      (fun _ => 0) (fun _ => 0)).2.1⟩

/-! ### Ledger invariant (C2) and selection-order helpers (C4) -/


/-- Members of an updated table are the new row or old members. -/
theorem mem_updateVoucher {vid : Nat} {v' w : Voucher} {tbl : VoucherTable}
    (h : w ∈ updateVoucher vid v' tbl) : w = v' ∨ w ∈ tbl := by
  unfold updateVoucher at h
  rcases List.mem_map.mp h with ⟨x, hx, hxw⟩
  by_cases hid : x.id = vid
  · simp [hid] at hxw; exact Or.inl hxw.symm
  · simp [hid] at hxw; exact Or.inr (hxw ▸ hx)

theorem keyLt_irrefl (a : Nat × Nat) : keyLt a a = false := by
  simp [keyLt]

theorem keyLt_asymm {a b : Nat × Nat} (h : keyLt a b = true) :
    keyLt b a = false := by
  simp only [keyLt, Bool.or_eq_true, Bool.and_eq_true, decide_eq_true_eq,
    Bool.or_eq_false_iff, Bool.and_eq_false_iff, decide_eq_false_iff_not] at h ⊢
  omega

theorem keyLt_trans_not {a b c : Nat × Nat} (h1 : keyLt a b = true)
    (h2 : keyLt c b = false) : keyLt a c = true := by
  simp only [keyLt, Bool.or_eq_true, Bool.and_eq_true, decide_eq_true_eq,
    Bool.or_eq_false_iff, Bool.and_eq_false_iff, decide_eq_false_iff_not]
      at h1 h2 ⊢
  omega

/-- Unfolding of the selection on a cons with an empty tail result. -/
theorem selectMinBy_cons_none {key : Voucher → Nat × Nat} {x : Voucher}
    {xs : List Voucher} (hx : selectMinBy key xs = none) :
    selectMinBy key (x :: xs) = some x := by
  unfold selectMinBy; rw [hx]

/-- Unfolding of the selection on a cons with a nonempty tail result. -/
theorem selectMinBy_cons_some {key : Voucher → Nat × Nat} {x m : Voucher}
    {xs : List Voucher} (hx : selectMinBy key xs = some m) :
    selectMinBy key (x :: xs) =
      if keyLt (key m) (key x) then some m else some x := by
  unfold selectMinBy; rw [hx]

/-- A `LIMIT 1` selection returns nothing exactly on the empty set. -/
theorem selectMinBy_eq_none {key : Voucher → Nat × Nat} {l : List Voucher} :
    selectMinBy key l = none ↔ l = [] := by
  cases l with
  | nil => simp [selectMinBy]
  | cons x xs =>
    constructor
    · intro h
      cases hx : selectMinBy key xs
      · rw [selectMinBy_cons_none hx] at h; cases h
      · rename_i m
        rw [selectMinBy_cons_some hx] at h
        cases hk : keyLt (key m) (key x)
        · rw [if_neg (by simp [hk])] at h; cases h
        · rw [if_pos hk] at h; cases h
    · intro h; cases h

/-- A `LIMIT 1` selection returns a member of the filtered set. -/
theorem selectMinBy_mem {key : Voucher → Nat × Nat} :
    ∀ {l : List Voucher} {v : Voucher}, selectMinBy key l = some v → v ∈ l := by
  intro l
  induction l with
  | nil => intro v h; cases h
  | cons x xs ih =>
    intro v h
    cases hx : selectMinBy key xs
    · rw [selectMinBy_cons_none hx] at h
      cases h; exact List.mem_cons_self _ _
    · rename_i m
      rw [selectMinBy_cons_some hx] at h
      cases hk : keyLt (key m) (key x)
      · rw [if_neg (by simp [hk])] at h
        cases h; exact List.mem_cons_self _ _
      · rw [if_pos hk] at h
        cases h; exact List.mem_cons_of_mem _ (ih hx)

/-- The selected row has a minimal sort key: no row of the set sorts
strictly before it. -/
theorem selectMinBy_min {key : Voucher → Nat × Nat} :
    ∀ {l : List Voucher} {v : Voucher}, selectMinBy key l = some v →
      ∀ w ∈ l, keyLt (key w) (key v) = false := by
  intro l
  induction l with
  | nil => intro v h; cases h
  | cons x xs ih =>
    intro v h w hw
    cases hx : selectMinBy key xs
    · rw [selectMinBy_cons_none hx] at h
      cases h
      have hxs : xs = [] := selectMinBy_eq_none.mp hx
      subst hxs
      rcases List.mem_singleton.mp hw with rfl
      exact keyLt_irrefl _
    · rename_i m
      rw [selectMinBy_cons_some hx] at h
      cases hk : keyLt (key m) (key x)
      · rw [if_neg (by simp [hk])] at h
        cases h
        rcases List.mem_cons.mp hw with rfl | hwxs
        · exact keyLt_irrefl _
        · have hwm := ih hx w hwxs
          cases hwx : keyLt (key w) (key x)
          · rfl
          · simp [keyLt_trans_not hwx hk] at hwm
      · rw [if_pos hk] at h
        cases h
        rcases List.mem_cons.mp hw with rfl | hwxs
        · exact keyLt_asymm hk
        · exact ih hx w hwxs

/-- Shape of a successful fresh insert: the new row is appended, carries the
requested fields with a zeroed counter, and its code collides with no
existing row. -/
theorem freshLoop_ok_shape {uid : Int} {ib : Option Int} {g : Int} {nid : Nat}
    {rand : Nat → Fin 10000} :
    ∀ {fuel attempt : Nat} {tbl tbl' : VoucherTable} {v' : Voucher},
      freshVoucherLoop uid ib g nid rand attempt fuel tbl = .ok (tbl', v') →
      tbl' = tbl ++ [v'] ∧ v'.id = nid ∧ v'.user_id = some uid ∧
      v'.issued_by = ib ∧ v'.used_at = none ∧ v'.use_count = 0 ∧
      v'.total_games = g ∧ ∀ w ∈ tbl, w.code ≠ v'.code := by
  intro fuel
  induction fuel with
  | zero => intro attempt tbl tbl' v' h; cases h
  | succ n ih =>
    intro attempt tbl tbl' v' h
    simp only [freshVoucherLoop] at h
    split at h
    · exact ih h
    · rename_i hclash
      cases h
      refine ⟨rfl, rfl, rfl, rfl, rfl, rfl, rfl, ?_⟩
      intro w hw hcode
      exact hclash (List.any_eq_true.mpr ⟨w, hw, by simp [hcode]⟩)

/-- Unfolding of `play_game` when the id lookup succeeds. -/
theorem play_game_found {now vid : Nat} {tbl : VoucherTable} {v : Voucher}
    (hf : tbl.find? (fun w => w.id = vid) = some v) :
    play_game now vid tbl =
      if v.use_count ≥ v.total_games then
        .error ⟨400, "Voucher has no remaining games"⟩
      else
        .ok (updateVoucher vid
              { v with use_count := v.use_count + 1, used_at := some now } tbl,
            { v with use_count := v.use_count + 1, used_at := some now }) := by
  unfold play_game; rw [hf]

/-- Unfolding of `mark_voucher_used` when the code lookup succeeds. -/
theorem mark_voucher_used_found {now : Nat} {code : String}
    {tbl : VoucherTable} {v : Voucher} (hc : ¬ pyStrip code = "")
    (hf : tbl.find? (fun w => w.code = pyStrip code) = some v) :
    mark_voucher_used now code tbl =
      if v.use_count ≥ v.total_games then
        .error ⟨400, "Voucher has no remaining games"⟩
      else
        .ok (updateVoucher v.id
              { v with use_count := v.use_count + 1, used_at := some now } tbl,
            { v with use_count := v.use_count + 1, used_at := some now }) := by
  unfold mark_voucher_used
  rw [if_neg hc, hf]

/-- Unfolding of `set_voucher_count` when the id lookup succeeds: some row
with the original `use_count` replaces the looked-up one. -/
theorem set_voucher_count_found {vid : Nat} {add decrease set : Option Int}
    {tbl : VoucherTable} {v : Voucher}
    (hf : tbl.find? (fun w => w.id = vid) = some v) :
    ∃ v', set_voucher_count vid add decrease set tbl =
        .ok (updateVoucher vid v' tbl, v') ∧ v'.use_count = v.use_count := by
  unfold set_voucher_count
  rw [hf]
  cases add <;> cases decrease <;> cases set <;> exact ⟨_, rfl, rfl⟩

/-- Unfolding of issue/reuse when the available-voucher query hits. -/
theorem issue_eq_avail {uid : Int} {ib : Option Int} {g : Int} {nid : Nat}
    {rand : Nat → Fin 10000} {tbl : VoucherTable} {v : Voucher}
    (h1 : selectMinBy availKey (tbl.filter isAvailable) = some v) :
    _issue_voucher_for_user uid ib g nid rand tbl =
      .ok (updateVoucher v.id (recycleVoucher uid ib g v) tbl,
           recycleVoucher uid ib g v) := by
  unfold _issue_voucher_for_user; rw [h1]

/-- Unfolding of issue/reuse when only the exhausted-voucher query hits. -/
theorem issue_eq_exhausted {uid : Int} {ib : Option Int} {g : Int} {nid : Nat}
    {rand : Nat → Fin 10000} {tbl : VoucherTable} {v : Voucher}
    (h1 : selectMinBy availKey (tbl.filter isAvailable) = none)
    (h2 : selectMinBy exhaustedKey (tbl.filter isExhausted) = some v) :
    _issue_voucher_for_user uid ib g nid rand tbl =
      .ok (updateVoucher v.id (recycleVoucher uid ib g v) tbl,
           recycleVoucher uid ib g v) := by
  unfold _issue_voucher_for_user; rw [h1, h2]

/-- Unfolding of issue/reuse when both reuse queries are empty. -/
theorem issue_eq_fresh {uid : Int} {ib : Option Int} {g : Int} {nid : Nat}
    {rand : Nat → Fin 10000} {tbl : VoucherTable}
    (h1 : selectMinBy availKey (tbl.filter isAvailable) = none)
    (h2 : selectMinBy exhaustedKey (tbl.filter isExhausted) = none) :
    _issue_voucher_for_user uid ib g nid rand tbl =
      freshVoucherLoop uid ib g nid rand 0 9999 tbl := by
  unfold _issue_voucher_for_user; rw [h1, h2]

/-- C2 counterexample: starting from a state satisfying the invariant (one
voucher with `use_count = 1`, `total_games = 2`), the admin adjustment
PUT `/voucher/1/count?set=0` succeeds and leaves `use_count = 1 >
total_games = 0`, violating `use_count ≤ total_games`. -/
theorem C2_counterexample :
    tableInvariant [{ wv1 with use_count := 1 }] ∧
    set_voucher_count 1 none none (some 0) [{ wv1 with use_count := 1 }] =
      .ok ([{ wv1 with use_count := 1, total_games := 0 }],
           { wv1 with use_count := 1, total_games := 0 }) ∧
    ¬ voucherInvariant { wv1 with use_count := 1, total_games := 0 } := by
  refine ⟨by decide, by decide, by decide⟩

/-- C2 amended: `0 ≤ use_count ≤ total_games` is preserved by `PlayGame`,
by the deprecated mark-used redemption and by issue/reuse (for a requested
`total_games ≥ 0`); the admin count adjustment preserves `0 ≤ use_count`
but enforces no floor on `total_games`, so it can break the upper bound
(see the counterexample). -/
theorem C2_invariant_amended (now vid : Nat) (code : String)
    (tbl : VoucherTable) (uid : Int) (ib : Option Int) (g : Int) (nid : Nat)
    (rand : Nat → Fin 10000) (add decrease set : Option Int)
    (hinv : tableInvariant tbl) :
    (∀ tbl' v', play_game now vid tbl = .ok (tbl', v') →
      tableInvariant tbl' ∧ voucherInvariant v') ∧
    (∀ tbl' v', mark_voucher_used now code tbl = .ok (tbl', v') →
      tableInvariant tbl' ∧ voucherInvariant v') ∧
    (0 ≤ g → ∀ tbl' v',
      _issue_voucher_for_user uid ib g nid rand tbl = .ok (tbl', v') →
      tableInvariant tbl' ∧ voucherInvariant v') ∧
    (∀ tbl' v', set_voucher_count vid add decrease set tbl = .ok (tbl', v') →
      ∀ v ∈ tbl', 0 ≤ v.use_count) := by
  refine ⟨?_, ?_, ?_, ?_⟩
  · intro tbl' v' h
    cases hf : tbl.find? (fun w => w.id = vid)
    · unfold play_game at h; rw [hf] at h; cases h
    · rename_i v
      rw [play_game_found hf] at h
      by_cases hge : v.use_count ≥ v.total_games
      · rw [if_pos hge] at h; cases h
      · rw [if_neg hge] at h
        cases h
        have hv := hinv v (List.mem_of_find?_eq_some hf)
        have hv' : voucherInvariant
            { v with use_count := v.use_count + 1, used_at := some now } := by
          unfold voucherInvariant at hv ⊢
          simp only [not_le] at hge
          refine ⟨?_, ?_⟩
          · show (0 : Int) ≤ v.use_count + 1
            omega
          · show v.use_count + 1 ≤ v.total_games
            omega
        refine ⟨?_, hv'⟩
        intro w hw
        rcases mem_updateVoucher hw with rfl | hwm
        · exact hv'
        · exact hinv w hwm
  · intro tbl' v' h
    by_cases hc : pyStrip code = ""
    · unfold mark_voucher_used at h; rw [if_pos hc] at h; cases h
    · cases hf : tbl.find? (fun w => w.code = pyStrip code)
      · unfold mark_voucher_used at h; rw [if_neg hc, hf] at h; cases h
      · rename_i v
        rw [mark_voucher_used_found hc hf] at h
        by_cases hge : v.use_count ≥ v.total_games
        · rw [if_pos hge] at h; cases h
        · rw [if_neg hge] at h
          cases h
          have hv := hinv v (List.mem_of_find?_eq_some hf)
          have hv' : voucherInvariant
              { v with use_count := v.use_count + 1, used_at := some now } := by
            unfold voucherInvariant at hv ⊢
            simp only [not_le] at hge
            refine ⟨?_, ?_⟩
            · show (0 : Int) ≤ v.use_count + 1
              omega
            · show v.use_count + 1 ≤ v.total_games
              omega
          refine ⟨?_, hv'⟩
          intro w hw
          rcases mem_updateVoucher hw with rfl | hwm
          · exact hv'
          · exact hinv w hwm
  · intro hg tbl' v' h
    have hrec : ∀ v : Voucher,
        voucherInvariant (recycleVoucher uid ib g v) := by
      intro v; exact ⟨le_refl 0, hg⟩
    cases h1 : selectMinBy availKey (tbl.filter isAvailable)
    · cases h2 : selectMinBy exhaustedKey (tbl.filter isExhausted)
      · rw [issue_eq_fresh h1 h2] at h
        rcases freshLoop_ok_shape h with
          ⟨htbl, -, -, -, -, hc, hgg, -⟩
        subst htbl
        constructor
        · intro w hw
          rcases List.mem_append.mp hw with hwm | hwv
          · exact hinv w hwm
          · rcases List.mem_singleton.mp hwv with rfl
            exact ⟨by omega, by omega⟩
        · exact ⟨by omega, by omega⟩
      · rename_i v
        rw [issue_eq_exhausted h1 h2] at h
        cases h
        refine ⟨?_, hrec v⟩
        intro w hw
        rcases mem_updateVoucher hw with rfl | hwm
        · exact hrec v
        · exact hinv w hwm
    · rename_i v
      rw [issue_eq_avail h1] at h
      cases h
      refine ⟨?_, hrec v⟩
      intro w hw
      rcases mem_updateVoucher hw with rfl | hwm
      · exact hrec v
      · exact hinv w hwm
  · intro tbl' v' h
    cases hf : tbl.find? (fun w => w.id = vid)
    · unfold set_voucher_count at h; rw [hf] at h; cases h
    · rename_i v
      rcases @set_voucher_count_found _ add decrease set _ _ hf with
        ⟨v2, heq, huse⟩
      rw [heq] at h
      cases h
      intro w hw
      rcases mem_updateVoucher hw with rfl | hwm
      · rw [huse]; exact (hinv v (List.mem_of_find?_eq_some hf)).1
      · exact (hinv w hwm).1

/-- Witness for C2's amended theorem: from the invariant-satisfying
singleton table, a successful play preserves the invariant. -/
theorem C2_invariant_amended_witness :
    tableInvariant [wv1] ∧
    (tableInvariant
        [{ wv1 with use_count := wv1.use_count + 1, used_at := some 5 }] ∧
      voucherInvariant
        { wv1 with use_count := wv1.use_count + 1, used_at := some 5 }) :=
  ⟨by decide,
   (C2_invariant_amended 5 1 "0001" [wv1] 42 none 1 2 (fun _ => 0)
        none none none (by decide)).1
      [{ wv1 with use_count := wv1.use_count + 1, used_at := some 5 }]
      { wv1 with use_count := wv1.use_count + 1, used_at := some 5 }
      (by decide)⟩

/-- A key that is not lexicographically below another has a first component
at least as large. -/
theorem keyLt_false_fst_le {a b : Nat × Nat} (h : keyLt a b = false) :
    b.1 ≤ a.1 := by
  simp only [keyLt, Bool.or_eq_false_iff, Bool.and_eq_false_iff,
    decide_eq_false_iff_not] at h
  omega

/-- C4: issue/reuse first recycles the oldest-created available voucher
(`user_id IS NULL`, `use_count < total_games`); failing that, the
oldest-used exhausted voucher (`use_count >= total_games`, NULL `used_at`
first); failing that, it inserts a fresh random code whose generation
retries on uniqueness collision, and the fresh row carries no code already
present. Every recycle reassigns `user_id`, resets `use_count` to 0, sets
`total_games` to the requested value and clears `used_at`, keeping id and
code. -/
theorem C4_issue_priority (uid : Int) (ib : Option Int) (g : Int) (nid : Nat)
    (rand : Nat → Fin 10000) (tbl : VoucherTable) :
    (tbl.filter isAvailable ≠ [] →
      ∃ v, v ∈ tbl ∧ isAvailable v = true ∧
        (∀ w ∈ tbl, isAvailable w = true → v.created_at ≤ w.created_at) ∧
        _issue_voucher_for_user uid ib g nid rand tbl =
          .ok (updateVoucher v.id (recycleVoucher uid ib g v) tbl,
               recycleVoucher uid ib g v)) ∧
    (tbl.filter isAvailable = [] → tbl.filter isExhausted ≠ [] →
      ∃ v, v ∈ tbl ∧ isExhausted v = true ∧
        (∀ w ∈ tbl, isExhausted w = true →
          (exhaustedKey v).1 ≤ (exhaustedKey w).1) ∧
        _issue_voucher_for_user uid ib g nid rand tbl =
          .ok (updateVoucher v.id (recycleVoucher uid ib g v) tbl,
               recycleVoucher uid ib g v)) ∧
    (tbl.filter isAvailable = [] → tbl.filter isExhausted = [] →
      _issue_voucher_for_user uid ib g nid rand tbl =
        freshVoucherLoop uid ib g nid rand 0 9999 tbl ∧
      ∀ tbl' v', freshVoucherLoop uid ib g nid rand 0 9999 tbl = .ok (tbl', v') →
        tbl' = tbl ++ [v'] ∧ v'.user_id = some uid ∧ v'.use_count = 0 ∧
        v'.total_games = g ∧ v'.used_at = none ∧
        ∀ w ∈ tbl, w.code ≠ v'.code) ∧
    (∀ v : Voucher,
      (recycleVoucher uid ib g v).user_id = some uid ∧
      (recycleVoucher uid ib g v).use_count = 0 ∧
      (recycleVoucher uid ib g v).total_games = g ∧
      (recycleVoucher uid ib g v).used_at = none ∧
      (recycleVoucher uid ib g v).id = v.id ∧
      (recycleVoucher uid ib g v).code = v.code) := by
  refine ⟨?_, ?_, ?_, ?_⟩
  · intro hne
    cases hsel : selectMinBy availKey (tbl.filter isAvailable)
    · exact absurd (selectMinBy_eq_none.mp hsel) hne
    · rename_i v
      have hvf := selectMinBy_mem hsel
      rcases List.mem_filter.mp hvf with ⟨hvt, hva⟩
      refine ⟨v, hvt, hva, ?_, issue_eq_avail hsel⟩
      intro w hw hwa
      exact keyLt_false_fst_le
        (selectMinBy_min hsel w (List.mem_filter.mpr ⟨hw, hwa⟩))
  · intro hav hne
    have h1 : selectMinBy availKey (tbl.filter isAvailable) = none := by
      rw [hav]; rfl
    cases hsel : selectMinBy exhaustedKey (tbl.filter isExhausted)
    · exact absurd (selectMinBy_eq_none.mp hsel) hne
    · rename_i v
      have hvf := selectMinBy_mem hsel
      rcases List.mem_filter.mp hvf with ⟨hvt, hve⟩
      refine ⟨v, hvt, hve, ?_, issue_eq_exhausted h1 hsel⟩
      intro w hw hwe
      exact keyLt_false_fst_le
        (selectMinBy_min hsel w (List.mem_filter.mpr ⟨hw, hwe⟩))
  · intro hav hex
    have h1 : selectMinBy availKey (tbl.filter isAvailable) = none := by
      rw [hav]; rfl
    have h2 : selectMinBy exhaustedKey (tbl.filter isExhausted) = none := by
      rw [hex]; rfl
    refine ⟨issue_eq_fresh h1 h2, ?_⟩
    intro tbl' v' h
    rcases freshLoop_ok_shape h with ⟨ht, -, hu, -, hua, hc, hg, hcol⟩
    exact ⟨ht, hu, hc, hg, hua, hcol⟩
  · intro v
    exact ⟨rfl, rfl, rfl, rfl, rfl, rfl⟩

/-- Witness for C4 at a concrete input: a pool of two released vouchers
(ids 1 and 2, created at times 1 and 5) — issuing recycles the
oldest-created one. -/
theorem C4_issue_priority_witness :
    ∃ v, v ∈ [{ wv1 with user_id := none, created_at := 5, id := 2 },
              { wv1 with user_id := none, created_at := 1 }] ∧
      isAvailable v = true ∧
      (∀ w ∈ [{ wv1 with user_id := none, created_at := 5, id := 2 },
              { wv1 with user_id := none, created_at := 1 }],
        isAvailable w = true → v.created_at ≤ w.created_at) ∧
      _issue_voucher_for_user 7 none 3 9 (fun _ => 0)
          [{ wv1 with user_id := none, created_at := 5, id := 2 },
           { wv1 with user_id := none, created_at := 1 }] =
        .ok (updateVoucher v.id (recycleVoucher 7 none 3 v)
              [{ wv1 with user_id := none, created_at := 5, id := 2 },
               { wv1 with user_id := none, created_at := 1 }],
             recycleVoucher 7 none 3 v) :=
  (C4_issue_priority 7 none 3 9 (fun _ => 0)
    [{ wv1 with user_id := none, created_at := 5, id := 2 },
     { wv1 with user_id := none, created_at := 1 }]).1 (by decide)

/-- Playing the only voucher of a singleton table while capacity remains. -/
theorem play_game_singleton {now : Nat} {w : Voucher}
    (h : w.use_count < w.total_games) :
    play_game now w.id [w] =
      .ok ([{ w with use_count := w.use_count + 1, used_at := some now }],
           { w with use_count := w.use_count + 1, used_at := some now }) := by
  have hf : [w].find? (fun v => v.id = w.id) = some w := by
    simp [List.find?]
  rw [play_game_found hf, if_neg (not_le.mpr h)]
  simp [updateVoucher]

/-- Playing a singleton table `n` times while `n` units of capacity remain
adds exactly `n` to the counter and stamps `used_at`. -/
theorem playSeq_singleton (now : Nat) :
    ∀ (n : Nat) (w : Voucher), 0 < n →
      w.use_count + (n : Int) ≤ w.total_games →
      playSeq now w.id n [w] =
        .ok [{ w with
                use_count := w.use_count + (n : Int),
                used_at := some now }] := by
  intro n
  induction n with
  | zero => intro w h; exact absurd h (lt_irrefl 0)
  | succ m ih =>
    intro w hpos hcap
    have hlt : w.use_count < w.total_games := by
      have : ((m : Int) + 1) = ((m + 1 : Nat) : Int) := by push_cast; ring
      omega
    simp only [playSeq, play_game_singleton hlt]
    cases m with
    | zero =>
      simp only [playSeq]
      congr 2
    | succ k =>
      have h1 := ih
        { w with use_count := w.use_count + 1, used_at := some now }
        (Nat.succ_pos k) (by push_cast at hcap ⊢; omega)
      rw [show ({ w with
            use_count := w.use_count + 1,
            used_at := some now } : Voucher).id = w.id from rfl] at h1
      rw [h1]
      congr 2
      simp only [Voucher.mk.injEq, true_and, and_true]
      show w.use_count + 1 + ((k + 1 : Nat) : Int) =
        w.use_count + ((k + 1 + 1 : Nat) : Int)
      push_cast
      ring

/-- C8: from a single-voucher pool (the voucher either released or
exhausted, hence recyclable), issuing to one user, playing all `n` granted
games, and issuing again for a second user recycles the same row: same id
and code, `use_count` reset to 0, `user_id` now the second user. -/
theorem C8_round_trip (v : Voucher) (u1 u2 : Int) (ib1 ib2 : Option Int)
    (n nid nid2 now : Nat) (rand rand2 : Nat → Fin 10000)
    (hrec : isAvailable v = true ∨ isExhausted v = true) (hn : 0 < n) :
    ∃ r : Voucher,
      _issue_voucher_for_user u1 ib1 (n : Int) nid rand [v] =
        .ok ([recycleVoucher u1 ib1 (n : Int) v],
             recycleVoucher u1 ib1 (n : Int) v) ∧
      playSeq now v.id n [recycleVoucher u1 ib1 (n : Int) v] =
        .ok [{ recycleVoucher u1 ib1 (n : Int) v with
                use_count := (n : Int), used_at := some now }] ∧
      _issue_voucher_for_user u2 ib2 (n : Int) nid2 rand2
          [{ recycleVoucher u1 ib1 (n : Int) v with
              use_count := (n : Int), used_at := some now }] =
        .ok ([r], r) ∧
      r.id = v.id ∧ r.code = v.code ∧ r.use_count = 0 ∧
      r.user_id = some u2 := by
  set w := recycleVoucher u1 ib1 (n : Int) v with hw
  set w2 : Voucher :=
    { w with use_count := (n : Int), used_at := some now } with hw2
  refine ⟨recycleVoucher u2 ib2 (n : Int) w2, ?_, ?_, ?_, rfl, rfl, rfl, rfl⟩
  · cases hav : isAvailable v
    · rcases hrec with h | hex
      · rw [hav] at h; cases h
      · have hfa : [v].filter isAvailable = [] := by simp [hav]
        have h1 : selectMinBy availKey ([v].filter isAvailable) = none := by
          rw [hfa]; rfl
        have hfe : [v].filter isExhausted = [v] := by simp [hex]
        have h2 : selectMinBy exhaustedKey ([v].filter isExhausted) = some v := by
          rw [hfe]; rfl
        rw [issue_eq_exhausted h1 h2]
        simp [updateVoucher]
    · have hfa : [v].filter isAvailable = [v] := by simp [hav]
      have h1 : selectMinBy availKey ([v].filter isAvailable) = some v := by
        rw [hfa]; rfl
      rw [issue_eq_avail h1]
      simp [updateVoucher]
  · have hid : w.id = v.id := rfl
    have hcap : w.use_count + (n : Int) ≤ w.total_games := by
      have h0 : w.use_count = 0 := rfl
      have hg : w.total_games = (n : Int) := rfl
      rw [h0, hg]; omega
    rw [← hid, playSeq_singleton now n w hn hcap]
    have h0 : w.use_count = 0 := rfl
    congr 2
    simp only [h0, zero_add, hw2]
  · have hav2 : isAvailable w2 = false := by
      simp [isAvailable, hw2, hw, recycleVoucher]
    have hfa : [w2].filter isAvailable = [] := by simp [hav2]
    have h1 : selectMinBy availKey ([w2].filter isAvailable) = none := by
      rw [hfa]; rfl
    have hex2 : isExhausted w2 = true := by
      simp [isExhausted, hw2, hw, recycleVoucher]
    have hfe : [w2].filter isExhausted = [w2] := by simp [hex2]
    have h2 : selectMinBy exhaustedKey ([w2].filter isExhausted) = some w2 := by
      rw [hfe]; rfl
    rw [issue_eq_exhausted h1 h2]
    simp [updateVoucher]

/-- Witness for C8: a released single voucher (code "0001"), two granted
games for user 7, exhausted by two plays, then recycled for user 8. -/
theorem C8_round_trip_witness :
    ∃ r : Voucher,
      _issue_voucher_for_user 7 none ((2 : Nat) : Int) 9 (fun _ => 0)
          [{ wv1 with user_id := none }] =
        .ok ([recycleVoucher 7 none ((2 : Nat) : Int) { wv1 with user_id := none }],
             recycleVoucher 7 none ((2 : Nat) : Int) { wv1 with user_id := none }) ∧
      playSeq 11 ({ wv1 with user_id := none } : Voucher).id 2
          [recycleVoucher 7 none ((2 : Nat) : Int) { wv1 with user_id := none }] =
        .ok [{ recycleVoucher 7 none ((2 : Nat) : Int) { wv1 with user_id := none } with
                use_count := ((2 : Nat) : Int), used_at := some 11 }] ∧
      _issue_voucher_for_user 8 none ((2 : Nat) : Int) 10 (fun _ => 1)
          [{ recycleVoucher 7 none ((2 : Nat) : Int) { wv1 with user_id := none } with
              use_count := ((2 : Nat) : Int), used_at := some 11 }] =
        .ok ([r], r) ∧
      r.id = ({ wv1 with user_id := none } : Voucher).id ∧
      r.code = ({ wv1 with user_id := none } : Voucher).code ∧
      r.use_count = 0 ∧ r.user_id = some 8 :=
  C8_round_trip { wv1 with user_id := none } 7 8 none none 2 9 10 11
    (fun _ => 0) (fun _ => 1) (Or.inl (by decide)) (by decide)

/-- A nonnegative rational strictly below `n` has floor `toNat` below `n`. -/
theorem rat_floor_toNat_lt {q : Rat} {n : Nat} (h0 : 0 ≤ q)
    (hq : q < (n : Rat)) : (Rat.floor q).toNat < n := by
  have hf : Rat.floor q < (n : Int) := by
    by_contra hle
    push_neg at hle
    have h2 := Rat.le_floor.mp hle
    push_cast at h2
    linarith
  have hf0 : (0 : Int) ≤ Rat.floor q := Rat.le_floor.mpr (by push_cast; linarith)
  omega

/-- The cumulative walk of the weighted choice: whenever the pick value is
at most the total weight remaining, the walk stops at the first index whose
cumulative weight reaches the pick value, and returns that candidate. -/
theorem walkCumulative_spec :
    ∀ (items : List (Prize × PrizeRemaining)) (pick acc : Rat),
      items ≠ [] →
      pick ≤ acc + ((items.map (fun pr => prWeight pr.1 pr.2)).sum) →
      ∃ i, i < items.length ∧
        walkCumulative pick acc
            (items.zip (items.map (fun pr => prWeight pr.1 pr.2))) =
          items.get? i ∧
        pick ≤ acc + cumWeight items (i + 1) ∧
        ∀ j < i, acc + cumWeight items (j + 1) < pick := by
  intro items
  induction items with
  | nil => intro pick acc hne; exact absurd rfl hne
  | cons x xs ih =>
    intro pick acc hne hsum
    by_cases hx : pick ≤ acc + prWeight x.1 x.2
    · refine ⟨0, Nat.succ_pos _, ?_, ?_, ?_⟩
      · simp only [List.map_cons, List.zip_cons_cons, walkCumulative]
        rw [if_pos hx]
        rfl
      · simpa [cumWeight] using hx
      · intro j hj; exact absurd hj (Nat.not_lt_zero j)
    · push_neg at hx
      have hxs : xs ≠ [] := by
        intro h; subst h
        simp only [List.map_cons, List.map_nil, List.sum_cons,
          List.sum_nil, add_zero] at hsum
        linarith
      have hs' : pick ≤ (acc + prWeight x.1 x.2) +
          (xs.map (fun pr => prWeight pr.1 pr.2)).sum := by
        simp only [List.map_cons, List.sum_cons] at hsum
        linarith
      rcases ih pick (acc + prWeight x.1 x.2) hxs hs' with
        ⟨i, hlen, hwalk, hle, hlt⟩
      refine ⟨i + 1, Nat.succ_lt_succ hlen, ?_, ?_, ?_⟩
      · simp only [List.map_cons, List.zip_cons_cons, walkCumulative]
        rw [if_neg (not_le.mpr hx)]
        exact hwalk
      · have hcum : cumWeight (x :: xs) (i + 1 + 1) =
            prWeight x.1 x.2 + cumWeight xs (i + 1) := by
          simp [cumWeight, List.take, List.sum_cons]
        rw [hcum]
        linarith
      · intro j hj
        cases j with
        | zero =>
          have hone : cumWeight (x :: xs) 1 = prWeight x.1 x.2 := by
            simp [cumWeight]
          rw [hone]
          linarith
        | succ j' =>
          have hcum : cumWeight (x :: xs) (j' + 1 + 1) =
              prWeight x.1 x.2 + cumWeight xs (j' + 1) := by
            simp [cumWeight, List.take, List.sum_cons]
          rw [hcum]
          have := hlt j' (Nat.lt_of_succ_lt_succ hj)
          linarith

/-- C5: for a nonempty candidate list and a uniform draw `u ∈ [0, 1)`, the
weighted choice gives each candidate weight
`max(0, prize.weight) * max(0, remaining)`; when the total is 0 it returns
the uniformly chosen index `int(u * len)` (a valid index); when positive it
returns the first candidate (in iteration order) whose cumulative weight
reaches the drawn value `u * total`; in every case the result is some
member of the input list. -/
theorem C5_weighted_choice (u : Rat) (items : List (Prize × PrizeRemaining))
    (hne : items ≠ []) (h0 : 0 ≤ u) (h1 : u < 1) :
    (∃ x, _weighted_choice u items = some x ∧ x ∈ items) ∧
    ((items.map (fun pr => prWeight pr.1 pr.2)).sum ≤ 0 →
      _weighted_choice u items =
        items.get? (Rat.floor (u * (items.length : Rat))).toNat ∧
      (Rat.floor (u * (items.length : Rat))).toNat < items.length) ∧
    (0 < (items.map (fun pr => prWeight pr.1 pr.2)).sum →
      ∃ i, i < items.length ∧
        _weighted_choice u items = items.get? i ∧
        u * (items.map (fun pr => prWeight pr.1 pr.2)).sum ≤
          cumWeight items (i + 1) ∧
        ∀ j < i, cumWeight items (j + 1) <
          u * (items.map (fun pr => prWeight pr.1 pr.2)).sum) ∧
    (∀ p r, prWeight p r = max 0 p.weight * max 0 ((r.remaining : Rat))) := by
  have hlenq : (0 : Rat) < (items.length : Rat) := by
    have := List.length_pos.mpr hne
    exact_mod_cast this
  have hidx : (Rat.floor (u * (items.length : Rat))).toNat < items.length := by
    refine rat_floor_toNat_lt (mul_nonneg h0 (le_of_lt hlenq)) ?_
    calc u * (items.length : Rat) < 1 * (items.length : Rat) :=
          mul_lt_mul_of_pos_right h1 hlenq
      _ = (items.length : Rat) := one_mul _
  have hfall : (items.map (fun pr => prWeight pr.1 pr.2)).sum ≤ 0 →
      _weighted_choice u items =
        items.get? (Rat.floor (u * (items.length : Rat))).toNat := by
    intro htot
    simp only [_weighted_choice]
    rw [if_pos htot]
  have hpos : 0 < (items.map (fun pr => prWeight pr.1 pr.2)).sum →
      ∃ i, i < items.length ∧
        _weighted_choice u items = items.get? i ∧
        u * (items.map (fun pr => prWeight pr.1 pr.2)).sum ≤
          cumWeight items (i + 1) ∧
        ∀ j < i, cumWeight items (j + 1) <
          u * (items.map (fun pr => prWeight pr.1 pr.2)).sum := by
    intro htot
    have hsum : u * (items.map (fun pr => prWeight pr.1 pr.2)).sum ≤
        0 + (items.map (fun pr => prWeight pr.1 pr.2)).sum := by
      rw [zero_add]
      calc u * (items.map (fun pr => prWeight pr.1 pr.2)).sum ≤
            1 * (items.map (fun pr => prWeight pr.1 pr.2)).sum :=
          mul_le_mul_of_nonneg_right (le_of_lt h1) (le_of_lt htot)
        _ = (items.map (fun pr => prWeight pr.1 pr.2)).sum := one_mul _
    rcases walkCumulative_spec items
        (u * (items.map (fun pr => prWeight pr.1 pr.2)).sum) 0 hne hsum with
      ⟨i, hlen, hwalk, hle, hlt⟩
    refine ⟨i, hlen, ?_, by simpa using hle, fun j hj => by simpa using hlt j hj⟩
    rw [List.get?_eq_get hlen] at hwalk
    simp only [_weighted_choice]
    rw [if_neg (not_le.mpr htot), hwalk, List.get?_eq_get hlen]
  refine ⟨?_, fun htot => ⟨hfall htot, hidx⟩, hpos, fun p r => by
    rw [prWeight, pyMax0_eq_max, pyMax0_eq_max]⟩
  rcases le_or_lt ((items.map (fun pr => prWeight pr.1 pr.2)).sum) 0 with
    htot | htot
  · rcases List.get?_eq_some.mp (List.get?_eq_get hidx) with ⟨hilt, hget⟩
    exact ⟨items.get ⟨_, hidx⟩, by rw [hfall htot, List.get?_eq_get hidx],
      List.get_mem _ _ _⟩
  · rcases hpos htot with ⟨i, hlen, heq, -, -⟩
    exact ⟨items.get ⟨i, hlen⟩, by rw [heq, List.get?_eq_get hlen],
      List.get_mem _ _ _⟩

/-- Witness for C5 at a concrete input: two candidates with weights 2·3 and
1·1 and the draw `u = 1/2`: the choice lands in the list. -/
theorem C5_weighted_choice_witness :
    ∃ x, _weighted_choice (1 / 2)
        [(⟨1, "a", 2⟩, ⟨1, 3⟩), (⟨2, "b", 1⟩, ⟨2, 1⟩)] = some x ∧
      x ∈ [((⟨1, "a", 2⟩ : Prize), (⟨1, 3⟩ : PrizeRemaining)),
           (⟨2, "b", 1⟩, ⟨2, 1⟩)] :=
  (C5_weighted_choice (1 / 2)
    [(⟨1, "a", 2⟩, ⟨1, 3⟩), (⟨2, "b", 1⟩, ⟨2, 1⟩)]
    (by decide) (by norm_num) (by norm_num)).1

/-- Looking up the decremented key finds the old first row, one lower. -/
theorem find?_decRemaining_self (pid : Nat) :
    ∀ tbl : List PrizeRemaining,
      (decRemaining pid tbl).find? (fun r => r.prize_id = pid) =
        (tbl.find? (fun r => r.prize_id = pid)).map
          (fun r => { r with remaining := r.remaining - 1 }) := by
  intro tbl
  induction tbl with
  | nil => rfl
  | cons r rs ih =>
    by_cases hr : r.prize_id = pid
    · rw [decRemaining, if_pos hr,
        List.find?_cons_of_pos _ (by simpa using hr),
        List.find?_cons_of_pos _ (by simpa using hr)]
      rfl
    · rw [decRemaining, if_neg hr,
        List.find?_cons_of_neg _ (by simpa using hr),
        List.find?_cons_of_neg _ (by simpa using hr)]
      exact ih

/-- Decrementing one key leaves lookups of every other key unchanged. -/
theorem find?_decRemaining_other (pid q : Nat) (hq : q ≠ pid) :
    ∀ tbl : List PrizeRemaining,
      (decRemaining pid tbl).find? (fun r => r.prize_id = q) =
        tbl.find? (fun r => r.prize_id = q) := by
  intro tbl
  induction tbl with
  | nil => rfl
  | cons r rs ih =>
    by_cases hr : r.prize_id = pid
    · have hrq : ¬ r.prize_id = q := by rw [hr]; exact fun h => hq h.symm
      rw [decRemaining, if_pos hr,
        List.find?_cons_of_neg _ (by simpa using hrq),
        List.find?_cons_of_neg _ (by simpa using hrq)]
    · by_cases hrq : r.prize_id = q
      · rw [decRemaining, if_neg hr,
          List.find?_cons_of_pos _ (by simpa using hrq),
          List.find?_cons_of_pos _ (by simpa using hrq)]
      · rw [decRemaining, if_neg hr,
          List.find?_cons_of_neg _ (by simpa using hrq),
          List.find?_cons_of_neg _ (by simpa using hrq)]
        exact ih

/-- With unique inventory keys, deleting the row of a key makes lookups of
that key come up empty. -/
theorem find?_eraseP_self (pid : Nat) :
    ∀ tbl : List PrizeRemaining,
      (tbl.map PrizeRemaining.prize_id).Nodup →
      (tbl.eraseP (fun r => r.prize_id = pid)).find?
          (fun r => r.prize_id = pid) = none := by
  intro tbl
  induction tbl with
  | nil => intro _; rfl
  | cons r rs ih =>
    intro hnd
    rw [List.map_cons] at hnd
    rcases List.nodup_cons.mp hnd with ⟨hrn, hnd'⟩
    by_cases hr : r.prize_id = pid
    · rw [List.eraseP_cons_of_pos (by simpa using hr)]
      have hrn' : pid ∉ List.map PrizeRemaining.prize_id rs := by
        rw [← hr]; exact hrn
      rw [List.find?_eq_none]
      intro x hx hpx
      exact hrn' (List.mem_map.mpr ⟨x, hx, by simpa using hpx⟩)
    · rw [List.eraseP_cons_of_neg (by simpa using hr),
        List.find?_cons_of_neg _ (by simpa using hr)]
      exact ih hnd'

/-- Deleting the row of one key leaves lookups of other keys unchanged. -/
theorem find?_eraseP_other (pid q : Nat) (hq : q ≠ pid) :
    ∀ tbl : List PrizeRemaining,
      (tbl.eraseP (fun r => r.prize_id = pid)).find?
          (fun r => r.prize_id = q) =
        tbl.find? (fun r => r.prize_id = q) := by
  intro tbl
  induction tbl with
  | nil => rfl
  | cons r rs ih =>
    by_cases hr : r.prize_id = pid
    · have hrq : ¬ r.prize_id = q := by rw [hr]; exact fun h => hq h.symm
      rw [List.eraseP_cons_of_pos (by simpa using hr),
        List.find?_cons_of_neg _ (by simpa using hrq)]
    · rw [List.eraseP_cons_of_neg (by simpa using hr)]
      by_cases hrq : r.prize_id = q
      · rw [List.find?_cons_of_pos _ (by simpa using hrq),
          List.find?_cons_of_pos _ (by simpa using hrq)]
      · rw [List.find?_cons_of_neg _ (by simpa using hrq),
          List.find?_cons_of_neg _ (by simpa using hrq)]
        exact ih

/-- Unfolding of `draw_prize` once the voucher is validated: a found,
unused voucher held by `uid`. -/
theorem draw_prize_unfold (u : Rat) (now : Nat) (codeStr : String)
    (st : SlotState) (v : Voucher) (uid : Int)
    (hcode : ¬ pyStrip codeStr = "")
    (hfind : st.vouchers.find? (fun w => w.code = pyStrip codeStr) = some v)
    (hused : v.used_at = none) (huid : v.user_id = some uid) :
    draw_prize u now codeStr st =
      (if (candidateRows st).isEmpty then
        .error ⟨409, "No prizes remaining"⟩
      else
        match _weighted_choice u (candidateRows st) with
        | none => .error ⟨500, "Internal Server Error"⟩
        | some (prize, rem) =>
          match st.remainingTbl.find? (fun r2 => r2.prize_id = rem.prize_id) with
          | none => .error ⟨409, "Prize just ran out, retry"⟩
          | some rem_row =>
            if rem_row.remaining ≤ 0 then
              .error ⟨409, "Prize just ran out, retry"⟩
            else
              .ok ({ st with
                      vouchers := updateVoucher v.id
                        { v with used_at := some now } st.vouchers,
                      remainingTbl :=
                        if rem_row.remaining ≤ 1 then
                          st.remainingTbl.eraseP
                            (fun r2 => r2.prize_id = rem.prize_id)
                        else decRemaining rem.prize_id st.remainingTbl,
                      wins := st.wins ++
                        [{ user_id := uid, prize_id := prize.id,
                           won_at := now }] },
                   { user_id := uid, prize := prize, won_at := now })) := by
  simp only [draw_prize]
  rw [if_neg hcode, hfind]
  change (if v.used_at ≠ none then _ else _) = _
  rw [hused, if_neg (show ¬ (none : Option Nat) ≠ none from fun h => h rfl)]
  change (match v.user_id with | none => _ | some user_id => _) = _
  rw [huid]

/-- Unfolding of `draw_prize` past the weighted choice. -/
theorem draw_prize_unfold2 (u : Rat) (now : Nat) (codeStr : String)
    (st : SlotState) (v : Voucher) (uid : Int)
    (prize : Prize) (rem : PrizeRemaining)
    (hcode : ¬ pyStrip codeStr = "")
    (hfind : st.vouchers.find? (fun w => w.code = pyStrip codeStr) = some v)
    (hused : v.used_at = none) (huid : v.user_id = some uid)
    (hEmpty : ¬ (candidateRows st).isEmpty = true)
    (hchoice : _weighted_choice u (candidateRows st) = some (prize, rem)) :
    draw_prize u now codeStr st =
      (match st.remainingTbl.find? (fun r2 => r2.prize_id = rem.prize_id) with
      | none => .error ⟨409, "Prize just ran out, retry"⟩
      | some rem_row =>
        if rem_row.remaining ≤ 0 then
          .error ⟨409, "Prize just ran out, retry"⟩
        else
          .ok ({ st with
                  vouchers := updateVoucher v.id
                    { v with used_at := some now } st.vouchers,
                  remainingTbl :=
                    if rem_row.remaining ≤ 1 then
                      st.remainingTbl.eraseP
                        (fun r2 => r2.prize_id = rem.prize_id)
                    else decRemaining rem.prize_id st.remainingTbl,
                  wins := st.wins ++
                    [{ user_id := uid, prize_id := prize.id,
                       won_at := now }] },
               { user_id := uid, prize := prize, won_at := now })) := by
  rw [draw_prize_unfold u now codeStr st v uid hcode hfind hused huid,
    if_neg hEmpty, hchoice]

/-- C3: for a validated voucher, the draw fails with 409 "No prizes
remaining" when the candidate set (inventory rows with `remaining > 0`
joined to prizes) is empty; after the weighted choice it re-checks the
chosen row by primary key and fails with 409 "Prize just ran out, retry"
when that row is gone or its `remaining` has dropped to ≤ 0; on success it
decrements the chosen row by exactly one — deleting it entirely when the
count reaches 0, never going negative — records exactly one new win row,
and stamps the voucher's `used_at`, all in one returned state; every error
branch returns before commit and so applies no change. -/
theorem C3_draw_prize (u : Rat) (now : Nat) (codeStr : String)
    (st : SlotState) (v : Voucher) (uid : Int)
    (hcode : ¬ pyStrip codeStr = "")
    (hfind : st.vouchers.find? (fun w => w.code = pyStrip codeStr) = some v)
    (hused : v.used_at = none) (huid : v.user_id = some uid) :
    (candidateRows st = [] →
      draw_prize u now codeStr st = .error ⟨409, "No prizes remaining"⟩) ∧
    (∀ prize rem,
      _weighted_choice u (candidateRows st) = some (prize, rem) →
      ¬ candidateRows st = [] →
      (st.remainingTbl.find? (fun r2 => r2.prize_id = rem.prize_id) = none →
        draw_prize u now codeStr st =
          .error ⟨409, "Prize just ran out, retry"⟩) ∧
      ∀ rem_row,
        st.remainingTbl.find? (fun r2 => r2.prize_id = rem.prize_id) =
          some rem_row →
        (rem_row.remaining ≤ 0 →
          draw_prize u now codeStr st =
            .error ⟨409, "Prize just ran out, retry"⟩) ∧
        (0 < rem_row.remaining →
          draw_prize u now codeStr st =
            .ok ({ st with
                    vouchers := updateVoucher v.id
                      { v with used_at := some now } st.vouchers,
                    remainingTbl :=
                      if rem_row.remaining ≤ 1 then
                        st.remainingTbl.eraseP
                          (fun r2 => r2.prize_id = rem.prize_id)
                      else decRemaining rem.prize_id st.remainingTbl,
                    wins := st.wins ++
                      [{ user_id := uid, prize_id := prize.id,
                         won_at := now }] },
                 { user_id := uid, prize := prize, won_at := now }) ∧
          ((st.remainingTbl.map PrizeRemaining.prize_id).Nodup →
            (rem_row.remaining = 1 →
              (st.remainingTbl.eraseP
                  (fun r2 => r2.prize_id = rem.prize_id)).find?
                  (fun r2 => r2.prize_id = rem.prize_id) = none) ∧
            (1 < rem_row.remaining →
              (decRemaining rem.prize_id st.remainingTbl).find?
                  (fun r2 => r2.prize_id = rem.prize_id) =
                some { rem_row with remaining := rem_row.remaining - 1 } ∧
              0 < rem_row.remaining - 1) ∧
            (∀ q, q ≠ rem.prize_id →
              (if rem_row.remaining ≤ 1 then
                  st.remainingTbl.eraseP
                    (fun r2 => r2.prize_id = rem.prize_id)
                else decRemaining rem.prize_id st.remainingTbl).find?
                  (fun r2 => r2.prize_id = q) =
                st.remainingTbl.find? (fun r2 => r2.prize_id = q))))) := by
  have hunf := draw_prize_unfold u now codeStr st v uid hcode hfind hused huid
  constructor
  · intro hrows
    rw [hunf, if_pos (by rw [hrows]; rfl)]
  · intro prize rem hchoice hne
    have hEmpty : ¬ (candidateRows st).isEmpty = true := by
      cases hck : candidateRows st
      · exact absurd hck hne
      · simp
    have hunf2 := draw_prize_unfold2 u now codeStr st v uid prize rem
      hcode hfind hused huid hEmpty hchoice
    constructor
    · intro hfr
      rw [hunf2, hfr]
    · intro rem_row hfr
      refine ⟨?_, ?_⟩
      · intro hle
        rw [hunf2, hfr]
        change (if rem_row.remaining ≤ 0 then _ else _) = _
        rw [if_pos hle]
      · intro hpos
        refine ⟨?_, ?_⟩
        · rw [hunf2, hfr]
          change (if rem_row.remaining ≤ 0 then _ else _) = _
          rw [if_neg (not_le.mpr hpos)]
        · intro hnodup
          refine ⟨?_, ?_, ?_⟩
          · intro _
            exact find?_eraseP_self rem.prize_id st.remainingTbl hnodup
          · intro hgt
            constructor
            · rw [find?_decRemaining_self rem.prize_id st.remainingTbl, hfr]
              rfl
            · omega
          · intro q hq
            by_cases h1 : rem_row.remaining ≤ 1
            · rw [if_pos h1]
              exact find?_eraseP_other rem.prize_id q hq st.remainingTbl
            · rw [if_neg h1]
              exact find?_decRemaining_other rem.prize_id q hq st.remainingTbl

/-- Witness for C3 at a concrete input: one prize with weight 1 and two
units remaining, a fresh voucher with code "0001" for user 42, and draw
value 0 — the draw succeeds, decrements the inventory row from 2 to 1 and
appends one win. -/
theorem C3_draw_prize_witness :
    draw_prize 0 99 "0001"
        { vouchers := [wv1], prizes := [⟨1, "a", 1⟩],
          remainingTbl := [⟨1, 2⟩], wins := [] } =
      .ok ({ ({ vouchers := [wv1], prizes := [⟨1, "a", 1⟩],
                remainingTbl := [⟨1, 2⟩], wins := [] } : SlotState) with
              vouchers := updateVoucher wv1.id
                { wv1 with used_at := some 99 } [wv1],
              remainingTbl :=
                if (⟨1, 2⟩ : PrizeRemaining).remaining ≤ 1 then
                  ([⟨1, 2⟩] : List PrizeRemaining).eraseP
                    (fun r2 => r2.prize_id = (⟨1, 2⟩ : PrizeRemaining).prize_id)
                else decRemaining (⟨1, 2⟩ : PrizeRemaining).prize_id [⟨1, 2⟩],
              wins := ([] : List PrizeWin) ++
                [{ user_id := 42, prize_id := (⟨1, "a", 1⟩ : Prize).id,
                   won_at := 99 }] },
           { user_id := 42, prize := ⟨1, "a", 1⟩, won_at := 99 }) :=
  ((((C3_draw_prize 0 99 "0001"
      { vouchers := [wv1], prizes := [⟨1, "a", 1⟩],
        remainingTbl := [⟨1, 2⟩], wins := [] }
      wv1 42 (by decide) (by decide) rfl rfl).2
    ⟨1, "a", 1⟩ ⟨1, 2⟩
    (by
      have hrows : candidateRows
          { vouchers := [wv1], prizes := [⟨1, "a", 1⟩],
            remainingTbl := [⟨1, 2⟩], wins := [] } =
          [(⟨1, "a", 1⟩, ⟨1, 2⟩)] := by decide
      rw [hrows]
      simp only [_weighted_choice, prWeight, pyMax0, List.map_cons,
        List.map_nil, List.sum_cons, List.sum_nil, List.zip_cons_cons,
        List.zip_nil_right, walkCumulative]
      norm_num)
    (by decide)).2
    ⟨1, 2⟩ (by decide)).2 (by decide)).1

/-- The entries Pass A keeps are exactly those whose action is `keep`,
independent of the environment. -/
theorem passAEntries_fst (env : SyncEnv) (tbl : VoucherTable) (uid : Int) :
    ∀ es : List VEntry,
      (passAEntries env tbl uid es).1 =
        es.filter (fun e => decide (entryAction tbl uid e = .keep)) := by
  intro es
  induction es with
  | nil => rfl
  | cons e es ih =>
    simp only [passAEntries]
    cases ha : entryAction tbl uid e <;>
      simp [List.filter_cons, ha, ih]

/-- The message deletions Pass A attempts are exactly the retract actions,
each recorded with its (irrelevant) external outcome. -/
theorem passAEntries_snd (env : SyncEnv) (tbl : VoucherTable) (uid : Int) :
    ∀ es : List VEntry,
      (passAEntries env tbl uid es).2 =
        es.filterMap (fun e =>
          match entryAction tbl uid e with
          | .retract mid => some (uid, mid, env.deleteOk uid mid)
          | _ => none) := by
  intro es
  induction es with
  | nil => rfl
  | cons e es ih =>
    simp only [passAEntries]
    cases ha : entryAction tbl uid e <;>
      simp [List.filterMap_cons, ha, ih]

/-- C7 counterexample: the claim calls a found voucher with
`use_count >= total_games` exhausted and says its entry is retracted and
dropped — but the cleanup loop parses `total_games` as `int(... or 1)`, so
a voucher stored with `total_games = 0` (reachable via the admin count
endpoint) and `use_count = 0` satisfies the claim's exhaustion condition
yet Pass A keeps its entry untouched and attempts no retraction. -/
theorem C7_counterexample :
    ({ wv1 with total_games := 0 } : Voucher).use_count ≥
      ({ wv1 with total_games := 0 } : Voucher).total_games ∧
    entryAction [{ wv1 with total_games := 0 }] 42 ⟨"0001", 5⟩ = .keep ∧
    ¬ entryAction [{ wv1 with total_games := 0 }] 42 ⟨"0001", 5⟩ =
        .retract (⟨"0001", 5⟩ : VEntry).message_id ∧
    passAEntries ⟨fun _ _ => true, fun _ _ => 7, fun _ _ => true⟩
        [{ wv1 with total_games := 0 }] 42 [⟨"0001", 5⟩] =
      ([⟨"0001", 5⟩], []) :=
  ⟨by decide, by decide, by decide, by decide⟩

/-- C7 amended: for every tracked delivery entry of Pass A — with a
well-formed code and message id — a missing voucher drops the entry; a
found voucher exhausted under the loop's parse of its counters
(`use_count >= total_games`, where a stored `total_games = 0` is read as 1
by the `or 1` default) retracts the external message and drops the entry; a
found voucher still active under that parse keeps it untouched. At the pass
level the kept list is exactly the keep-actions and the retraction attempts
exactly the retract-actions; the kept list never depends on whether the
external deletions succeed. -/
theorem C7_retraction_amended (env env2 : SyncEnv) (tbl : VoucherTable)
    (uid : Int) (es : List VEntry) :
    (∀ e : VEntry, ¬ pyStrip e.code = "" → 0 < e.message_id →
      (lookupVoucher tbl (pyStrip e.code) uid = none →
        entryAction tbl uid e = .drop) ∧
      (∀ v, lookupVoucher tbl (pyStrip e.code) uid = some v →
        (v.use_count ≥ orOne v.total_games →
          entryAction tbl uid e = .retract e.message_id) ∧
        (v.use_count < orOne v.total_games → entryAction tbl uid e = .keep))) ∧
    (passAEntries env tbl uid es).1 =
      es.filter (fun e => decide (entryAction tbl uid e = .keep)) ∧
    (passAEntries env tbl uid es).2 =
      es.filterMap (fun e =>
        match entryAction tbl uid e with
        | .retract mid => some (uid, mid, env.deleteOk uid mid)
        | _ => none) ∧
    (passAEntries env tbl uid es).1 = (passAEntries env2 tbl uid es).1 := by
  refine ⟨?_, passAEntries_fst env tbl uid es, passAEntries_snd env tbl uid es,
    by rw [passAEntries_fst env tbl uid es, passAEntries_fst env2 tbl uid es]⟩
  intro e hc hm
  have hvalid : ¬ (pyStrip e.code = "" || e.message_id ≤ 0) = true := by
    simp only [Bool.or_eq_true, decide_eq_true_eq, not_or]
    exact ⟨by simpa using hc, by simpa using not_le.mpr hm⟩
  constructor
  · intro hlook
    unfold entryAction
    rw [if_neg hvalid, hlook]
  · intro v hlook
    constructor
    · intro hge
      unfold entryAction
      rw [if_neg hvalid, hlook]
      change (if v.use_count ≥ orOne v.total_games then _ else _) = _
      rw [if_pos hge]
    · intro hlt
      unfold entryAction
      rw [if_neg hvalid, hlook]
      change (if v.use_count ≥ orOne v.total_games then _ else _) = _
      rw [if_neg (not_le.mpr hlt)]

/-- Witness for C7's amended theorem at a concrete input: one exhausted
voucher tracked by one entry — the entry is retracted-and-dropped; and with
a second table where the voucher is gone, the entry is dropped without a
retraction. -/
theorem C7_retraction_amended_witness :
    entryAction [{ wv1 with use_count := 2 }] 42 ⟨"0001", 5⟩ =
      .retract (⟨"0001", 5⟩ : VEntry).message_id ∧
    entryAction [] 42 ⟨"0001", 5⟩ = .drop ∧
    (passAEntries ⟨fun _ _ => true, fun _ _ => 7, fun _ _ => true⟩
        [{ wv1 with use_count := 2 }] 42 [⟨"0001", 5⟩]).1 =
      ([⟨"0001", 5⟩] : List VEntry).filter
        (fun e => decide (entryAction [{ wv1 with use_count := 2 }] 42 e = .keep)) :=
  ⟨(((C7_retraction_amended ⟨fun _ _ => true, fun _ _ => 7, fun _ _ => true⟩
        ⟨fun _ _ => true, fun _ _ => 7, fun _ _ => false⟩
        [{ wv1 with use_count := 2 }] 42 [⟨"0001", 5⟩]).1
      ⟨"0001", 5⟩ (by decide) (by decide)).2
      { wv1 with use_count := 2 } (by decide)).1 (by decide),
   ((C7_retraction_amended ⟨fun _ _ => true, fun _ _ => 7, fun _ _ => true⟩
        ⟨fun _ _ => true, fun _ _ => 7, fun _ _ => false⟩
        [] 42 [⟨"0001", 5⟩]).1
      ⟨"0001", 5⟩ (by decide) (by decide)).1 (by decide),
   (C7_retraction_amended ⟨fun _ _ => true, fun _ _ => 7, fun _ _ => true⟩
        ⟨fun _ _ => true, fun _ _ => 7, fun _ _ => false⟩
        [{ wv1 with use_count := 2 }] 42 [⟨"0001", 5⟩]).2.1⟩

/-! ### Settings-store lemmas for the reconciliation loop -/

theorem settingsGet_set_self (uid : Int) (es : List VEntry) :
    ∀ s : List (Int × List VEntry),
      settingsGet (settingsSet uid es s) uid = es := by
  intro s
  unfold settingsSet
  by_cases hany : s.any (fun kv => kv.1 = uid)
  · rw [if_pos hany]
    induction s with
    | nil => cases hany
    | cons kv rest ih =>
      by_cases hk : kv.1 = uid
      · simp only [List.map_cons, if_pos hk]
        unfold settingsGet
        rw [List.find?_cons_of_pos _ (by simp)]
      · simp only [List.map_cons, if_neg hk]
        unfold settingsGet
        rw [List.find?_cons_of_neg _ (by simpa using hk)]
        exact ih (by
          rcases List.any_eq_true.mp hany with ⟨x, hx, hpx⟩
          rcases List.mem_cons.mp hx with rfl | hxr
          · exact absurd (by simpa using hpx) hk
          · exact List.any_eq_true.mpr ⟨x, hxr, hpx⟩)
  · rw [if_neg hany]
    induction s with
    | nil =>
      unfold settingsGet
      rw [List.nil_append, List.find?_cons_of_pos _ (by simp)]
    | cons kv rest ih =>
      have hk : ¬ kv.1 = uid := by
        intro h
        exact hany (List.any_eq_true.mpr ⟨kv, List.mem_cons_self _ _, by simpa using h⟩)
      unfold settingsGet
      rw [List.cons_append, List.find?_cons_of_neg _ (by simpa using hk)]
      exact ih (fun h => hany (by
        rcases List.any_eq_true.mp h with ⟨x, hx, hpx⟩
        exact List.any_eq_true.mpr ⟨x, List.mem_cons_of_mem _ hx, hpx⟩))

theorem find?_map_set_ne (uid uid' : Int) (es : List VEntry)
    (h : ¬ uid' = uid) :
    ∀ s : List (Int × List VEntry),
      (s.map (fun kv => if kv.1 = uid then (uid, es) else kv)).find?
          (fun kv => kv.1 = uid') =
        s.find? (fun kv => kv.1 = uid') := by
  intro s
  induction s with
  | nil => rfl
  | cons kv rest ih =>
    rw [List.map_cons]
    by_cases hk : kv.1 = uid
    · rw [if_pos hk,
        List.find?_cons_of_neg _
          (by simpa using fun hh : (uid : Int) = uid' => h hh.symm),
        List.find?_cons_of_neg _
          (by rw [hk]; simpa using fun hh : (uid : Int) = uid' => h hh.symm)]
      exact ih
    · rw [if_neg hk]
      by_cases hku : kv.1 = uid'
      · rw [List.find?_cons_of_pos _ (by simpa using hku),
          List.find?_cons_of_pos _ (by simpa using hku)]
      · rw [List.find?_cons_of_neg _ (by simpa using hku),
          List.find?_cons_of_neg _ (by simpa using hku)]
        exact ih

theorem find?_append_single_ne (uid uid' : Int) (es : List VEntry)
    (h : ¬ uid' = uid) :
    ∀ s : List (Int × List VEntry),
      (s ++ [(uid, es)]).find? (fun kv => kv.1 = uid') =
        s.find? (fun kv => kv.1 = uid') := by
  intro s
  induction s with
  | nil =>
    rw [List.nil_append,
      List.find?_cons_of_neg _
        (by simpa using fun hh : (uid : Int) = uid' => h hh.symm),
      List.find?_nil]
  | cons kv rest ih =>
    by_cases hku : kv.1 = uid'
    · rw [List.cons_append, List.find?_cons_of_pos _ (by simpa using hku),
        List.find?_cons_of_pos _ (by simpa using hku)]
    · rw [List.cons_append, List.find?_cons_of_neg _ (by simpa using hku),
        List.find?_cons_of_neg _ (by simpa using hku)]
      exact ih

theorem settingsGet_set_ne (uid uid' : Int) (es : List VEntry)
    (h : ¬ uid' = uid) (s : List (Int × List VEntry)) :
    settingsGet (settingsSet uid es s) uid' = settingsGet s uid' := by
  unfold settingsSet settingsGet
  by_cases hany : s.any (fun kv => kv.1 = uid)
  · rw [if_pos hany, find?_map_set_ne uid uid' es h s]
  · rw [if_neg hany, find?_append_single_ne uid uid' es h s]

/-- Rewriting a key with the value it already holds is the identity, given
unique keys. -/
theorem map_eq_self_of_forall {α : Type} {f : α → α} :
    ∀ l : List α, (∀ x ∈ l, f x = x) → l.map f = l
  | [], _ => rfl
  | x :: xs, h => by
    rw [List.map_cons, h x (List.mem_cons_self _ _),
      map_eq_self_of_forall xs (fun y hy => h y (List.mem_cons_of_mem _ hy))]

theorem settingsSet_self (uid : Int) (es : List VEntry) :
    ∀ s : List (Int × List VEntry), (s.map Prod.fst).Nodup →
      (uid, es) ∈ s → settingsSet uid es s = s := by
  intro s hnd hmem
  unfold settingsSet
  rw [if_pos (List.any_eq_true.mpr ⟨(uid, es), hmem, by simp⟩)]
  apply map_eq_self_of_forall
  intro kv hkv
  by_cases hk : kv.1 = uid
  · have hkv2 : kv = (uid, es) :=
      List.inj_on_of_nodup_map hnd hkv hmem (by simpa using hk)
    rw [if_pos hk, hkv2]
  · exact if_neg hk

theorem settingsDel_nodup {uid : Int} {s : List (Int × List VEntry)}
    (hnd : (s.map Prod.fst).Nodup) :
    ((settingsDel uid s).map Prod.fst).Nodup :=
  List.Nodup.sublist (List.Sublist.map _ (List.filter_sublist s)) hnd

theorem mem_settingsDel {uid : Int} {kv : Int × List VEntry}
    {s : List (Int × List VEntry)} (h : kv ∈ settingsDel uid s) :
    kv ∈ s ∧ ¬ kv.1 = uid := by
  rcases List.mem_filter.mp h with ⟨hm, hq⟩
  exact ⟨hm, by simpa using hq⟩

/-- One Pass A step with no stored state under the key. -/
theorem passA_cons_nofind (env : SyncEnv) (tbl : VoucherTable) (uid : Int)
    (keys : List Int) (s : List (Int × List VEntry))
    (hf : s.find? (fun kv => kv.1 = uid) = none) :
    passA env tbl (uid :: keys) s = passA env tbl keys s := by
  simp only [passA, hf]

/-- One Pass A step on a key holding an empty code list: the key is
deleted. -/
theorem passA_cons_empty (env : SyncEnv) (tbl : VoucherTable) (uid : Int)
    (keys : List Int) (s : List (Int × List VEntry))
    (kv : Int × List VEntry)
    (hf : s.find? (fun kv => kv.1 = uid) = some kv)
    (he : kv.2.isEmpty = true) :
    passA env tbl (uid :: keys) s =
      ((passA env tbl keys (settingsDel uid s)).1,
       (passA env tbl keys (settingsDel uid s)).2.1,
       (passA env tbl keys (settingsDel uid s)).2.2.1,
       uid :: (passA env tbl keys (settingsDel uid s)).2.2.2) := by
  simp only [passA, hf]
  rw [if_pos he]

/-- One Pass A step where every entry is dropped: retractions are recorded
and the key is deleted. -/
theorem passA_cons_dropAll (env : SyncEnv) (tbl : VoucherTable) (uid : Int)
    (keys : List Int) (s : List (Int × List VEntry))
    (kv : Int × List VEntry)
    (hf : s.find? (fun kv => kv.1 = uid) = some kv)
    (he : kv.2.isEmpty = false)
    (hre : (passAEntries env tbl uid kv.2).1 = []) :
    passA env tbl (uid :: keys) s =
      ((passA env tbl keys (settingsDel uid s)).1,
       (passAEntries env tbl uid kv.2).2 ++
         (passA env tbl keys (settingsDel uid s)).2.1,
       (passA env tbl keys (settingsDel uid s)).2.2.1,
       uid :: (passA env tbl keys (settingsDel uid s)).2.2.2) := by
  rcases hpa : passAEntries env tbl uid kv.2 with ⟨rem, dels⟩
  rw [hpa] at hre
  simp only at hre
  subst hre
  simp only [passA, hf, hpa]
  rw [if_neg (by simp [he]), if_pos (by rfl)]

/-- One Pass A step where some entries survive: retractions are recorded
and the kept entries are rewritten under the key. -/
theorem passA_cons_keep (env : SyncEnv) (tbl : VoucherTable) (uid : Int)
    (keys : List Int) (s : List (Int × List VEntry))
    (kv : Int × List VEntry)
    (hf : s.find? (fun kv => kv.1 = uid) = some kv)
    (he : kv.2.isEmpty = false)
    (hre : ¬ (passAEntries env tbl uid kv.2).1 = []) :
    passA env tbl (uid :: keys) s =
      ((passA env tbl keys
          (settingsSet uid (passAEntries env tbl uid kv.2).1 s)).1,
       (passAEntries env tbl uid kv.2).2 ++
         (passA env tbl keys
           (settingsSet uid (passAEntries env tbl uid kv.2).1 s)).2.1,
       (uid, (passAEntries env tbl uid kv.2).1) ::
         (passA env tbl keys
           (settingsSet uid (passAEntries env tbl uid kv.2).1 s)).2.2.1,
       (passA env tbl keys
         (settingsSet uid (passAEntries env tbl uid kv.2).1 s)).2.2.2) := by
  rcases hpa : passAEntries env tbl uid kv.2 with ⟨rem, dels⟩
  rw [hpa] at hre
  simp only at hre
  simp only [passA, hf, hpa]
  rw [if_neg (by simp [he]),
    if_neg (by simpa using hre)]

/-- Membership is preserved by the id-descending insertion sort. -/
theorem mem_sortByIdDesc {x : Voucher} :
    ∀ l : List Voucher, x ∈ sortByIdDesc l ↔ x ∈ l := by
  have hins : ∀ (v : Voucher) (l : List Voucher),
      x ∈ insertByIdDesc v l ↔ x = v ∨ x ∈ l := by
    intro v l
    induction l with
    | nil => simp [insertByIdDesc]
    | cons w ws ih =>
      unfold insertByIdDesc
      by_cases hle : v.id ≥ w.id
      · rw [if_pos hle]
        simp
      · rw [if_neg hle]
        simp only [List.mem_cons, ih]
        tauto
  intro l
  induction l with
  | nil => simp [sortByIdDesc]
  | cons v vs ih =>
    unfold sortByIdDesc at ih ⊢
    rw [List.foldr_cons, hins]
    simp only [List.mem_cons, ih]

/-- With unique codes, the loop's voucher lookup of a voucher's own code
and holder finds exactly that voucher. -/
theorem lookupVoucher_self {uid : Int} :
    ∀ {tbl : VoucherTable} {v : Voucher},
      (tbl.map Voucher.code).Nodup → v ∈ tbl → v.user_id = some uid →
      lookupVoucher tbl v.code uid = some v := by
  intro tbl
  induction tbl with
  | nil => intro v _ hv; cases hv
  | cons w ws ih =>
    intro v hnd hv huid
    rw [List.map_cons] at hnd
    rcases List.nodup_cons.mp hnd with ⟨hwn, hnd'⟩
    rcases List.mem_cons.mp hv with rfl | hvw
    · unfold lookupVoucher
      rw [List.filter_cons_of_pos (by simp [huid])]
      have hnone : ws.filter
          (fun w2 => w2.code = v.code && w2.user_id = some uid) = [] := by
        apply List.filter_eq_nil_iff.mpr
        intro x hx
        simp only [Bool.and_eq_true, decide_eq_true_eq, not_and]
        intro hxc
        exact absurd (hxc ▸ List.mem_map.mpr ⟨x, hx, rfl⟩ :
          v.code ∈ ws.map Voucher.code) hwn
      rw [hnone]
      rfl
    · have hwc : ¬ w.code = v.code := by
        intro hc
        exact hwn (hc ▸ List.mem_map.mpr ⟨v, hvw, rfl⟩)
      unfold lookupVoucher
      rw [List.filter_cons_of_neg (by simp [hwc])]
      exact ih hnd' hvw huid

theorem map_fst_settingsSet_present {uid : Int} {es : List VEntry}
    {s : List (Int × List VEntry)}
    (hany : s.any (fun kv => kv.1 = uid) = true) :
    (settingsSet uid es s).map Prod.fst = s.map Prod.fst := by
  unfold settingsSet
  rw [if_pos hany, List.map_map]
  apply List.map_congr_left
  intro kv _
  by_cases hk : kv.1 = uid
  · simp only [Function.comp_apply, if_pos hk]
    exact hk.symm
  · simp only [Function.comp_apply, if_neg hk]

theorem map_fst_settingsSet_absent {uid : Int} {es : List VEntry}
    {s : List (Int × List VEntry)}
    (hany : ¬ s.any (fun kv => kv.1 = uid) = true) :
    (settingsSet uid es s).map Prod.fst = s.map Prod.fst ++ [uid] := by
  unfold settingsSet
  rw [if_neg hany, List.map_append]
  rfl

theorem mem_settingsSet {uid : Int} {es : List VEntry}
    {kv : Int × List VEntry} {s : List (Int × List VEntry)}
    (h : kv ∈ settingsSet uid es s) :
    kv = (uid, es) ∨ (kv ∈ s ∧ ¬ kv.1 = uid) := by
  unfold settingsSet at h
  by_cases hany : s.any (fun kv => kv.1 = uid) = true
  · rw [if_pos hany] at h
    rcases List.mem_map.mp h with ⟨x, hx, hxe⟩
    by_cases hk : x.1 = uid
    · rw [if_pos hk] at hxe
      exact Or.inl hxe.symm
    · rw [if_neg hk] at hxe
      exact Or.inr ⟨hxe ▸ hx, hxe ▸ hk⟩
  · rw [if_neg hany] at h
    rcases List.mem_append.mp h with hs | he
    · exact Or.inr ⟨hs, fun hk =>
        hany (List.any_eq_true.mpr ⟨kv, hs, by simpa using hk⟩)⟩
    · rcases List.mem_singleton.mp he with rfl
      exact Or.inl rfl

theorem passA_cons_empty_parts (env : SyncEnv) (tbl : VoucherTable)
    (uid : Int) (keys : List Int) (s : List (Int × List VEntry))
    (kv : Int × List VEntry)
    (hf : s.find? (fun kv => kv.1 = uid) = some kv)
    (he : kv.2.isEmpty = true) :
    (passA env tbl (uid :: keys) s).1 =
      (passA env tbl keys (settingsDel uid s)).1 ∧
    (passA env tbl (uid :: keys) s).2.1 =
      (passA env tbl keys (settingsDel uid s)).2.1 ∧
    (passA env tbl (uid :: keys) s).2.2.1 =
      (passA env tbl keys (settingsDel uid s)).2.2.1 ∧
    (passA env tbl (uid :: keys) s).2.2.2 =
      uid :: (passA env tbl keys (settingsDel uid s)).2.2.2 := by
  rw [passA_cons_empty env tbl uid keys s kv hf he]
  exact ⟨rfl, rfl, rfl, rfl⟩

theorem passA_cons_dropAll_parts (env : SyncEnv) (tbl : VoucherTable)
    (uid : Int) (keys : List Int) (s : List (Int × List VEntry))
    (kv : Int × List VEntry)
    (hf : s.find? (fun kv => kv.1 = uid) = some kv)
    (he : kv.2.isEmpty = false)
    (hre : (passAEntries env tbl uid kv.2).1 = []) :
    (passA env tbl (uid :: keys) s).1 =
      (passA env tbl keys (settingsDel uid s)).1 ∧
    (passA env tbl (uid :: keys) s).2.1 =
      (passAEntries env tbl uid kv.2).2 ++
        (passA env tbl keys (settingsDel uid s)).2.1 ∧
    (passA env tbl (uid :: keys) s).2.2.1 =
      (passA env tbl keys (settingsDel uid s)).2.2.1 ∧
    (passA env tbl (uid :: keys) s).2.2.2 =
      uid :: (passA env tbl keys (settingsDel uid s)).2.2.2 := by
  rw [passA_cons_dropAll env tbl uid keys s kv hf he hre]
  exact ⟨rfl, rfl, rfl, rfl⟩

theorem passA_cons_keep_parts (env : SyncEnv) (tbl : VoucherTable)
    (uid : Int) (keys : List Int) (s : List (Int × List VEntry))
    (kv : Int × List VEntry)
    (hf : s.find? (fun kv => kv.1 = uid) = some kv)
    (he : kv.2.isEmpty = false)
    (hre : ¬ (passAEntries env tbl uid kv.2).1 = []) :
    (passA env tbl (uid :: keys) s).1 =
      (passA env tbl keys
        (settingsSet uid (passAEntries env tbl uid kv.2).1 s)).1 ∧
    (passA env tbl (uid :: keys) s).2.1 =
      (passAEntries env tbl uid kv.2).2 ++
        (passA env tbl keys
          (settingsSet uid (passAEntries env tbl uid kv.2).1 s)).2.1 ∧
    (passA env tbl (uid :: keys) s).2.2.1 =
      (uid, (passAEntries env tbl uid kv.2).1) ::
        (passA env tbl keys
          (settingsSet uid (passAEntries env tbl uid kv.2).1 s)).2.2.1 ∧
    (passA env tbl (uid :: keys) s).2.2.2 =
      (passA env tbl keys
        (settingsSet uid (passAEntries env tbl uid kv.2).1 s)).2.2.2 := by
  rw [passA_cons_keep env tbl uid keys s kv hf he hre]
  exact ⟨rfl, rfl, rfl, rfl⟩

/-- After Pass A, keys are still unique, and every stored key either was
processed (its entry list is nonempty and contains only kept entries) or
was already present untouched. -/
theorem passA_establishes (env : SyncEnv) (tbl : VoucherTable) :
    ∀ (keys : List Int) (s : List (Int × List VEntry)),
      (s.map Prod.fst).Nodup →
      (((passA env tbl keys s).1.map Prod.fst).Nodup ∧
       ∀ kv ∈ (passA env tbl keys s).1,
         (kv.1 ∈ keys → keyClean tbl kv) ∧ (kv.1 ∉ keys → kv ∈ s)) := by
  intro keys
  induction keys with
  | nil =>
    intro s hnd
    exact ⟨hnd, fun kv hkv =>
      ⟨fun h => absurd h (List.not_mem_nil _), fun _ => hkv⟩⟩
  | cons uid keys ih =>
    intro s hnd
    cases hf : s.find? (fun kv => kv.1 = uid)
    · rw [passA_cons_nofind env tbl uid keys s hf]
      rcases ih s hnd with ⟨ih1, ih2⟩
      refine ⟨ih1, fun kv hkv => ⟨?_, ?_⟩⟩
      · intro hin
        rcases List.mem_cons.mp hin with hk | hk
        · by_cases hks : kv.1 ∈ keys
          · exact (ih2 kv hkv).1 hks
          · have hmem := (ih2 kv hkv).2 hks
            have := List.find?_eq_none.mp hf kv hmem
            exact absurd (by simpa using hk) this
        · exact (ih2 kv hkv).1 hk
      · intro hnin
        exact (ih2 kv hkv).2 (fun hk => hnin (List.mem_cons_of_mem _ hk))
    · rename_i kv0
      have hkey : kv0.1 = uid := by simpa using List.find?_some hf
      by_cases hemp : kv0.2.isEmpty = true
      · rcases passA_cons_empty_parts env tbl uid keys s kv0 hf hemp with
          ⟨hp1, -, -, -⟩
        rw [hp1]
        rcases ih (settingsDel uid s) (settingsDel_nodup hnd) with ⟨ih1, ih2⟩
        refine ⟨ih1, fun kv hkv => ⟨?_, ?_⟩⟩
        · intro hin
          rcases List.mem_cons.mp hin with hk | hk
          · by_cases hks : kv.1 ∈ keys
            · exact (ih2 kv hkv).1 hks
            · have hmem := (ih2 kv hkv).2 hks
              exact absurd (by simpa using hk) (mem_settingsDel hmem).2
          · exact (ih2 kv hkv).1 hk
        · intro hnin
          exact (mem_settingsDel
            ((ih2 kv hkv).2 (fun hk => hnin (List.mem_cons_of_mem _ hk)))).1
      · have hemp' : kv0.2.isEmpty = false := by
          cases h2 : kv0.2.isEmpty
          · rfl
          · exact absurd h2 hemp
        by_cases hre : (passAEntries env tbl uid kv0.2).1 = []
        · rcases passA_cons_dropAll_parts env tbl uid keys s kv0 hf hemp' hre
            with ⟨hp1, -, -, -⟩
          rw [hp1]
          rcases ih (settingsDel uid s) (settingsDel_nodup hnd) with ⟨ih1, ih2⟩
          refine ⟨ih1, fun kv hkv => ⟨?_, ?_⟩⟩
          · intro hin
            rcases List.mem_cons.mp hin with hk | hk
            · by_cases hks : kv.1 ∈ keys
              · exact (ih2 kv hkv).1 hks
              · have hmem := (ih2 kv hkv).2 hks
                exact absurd (by simpa using hk) (mem_settingsDel hmem).2
            · exact (ih2 kv hkv).1 hk
          · intro hnin
            exact (mem_settingsDel
              ((ih2 kv hkv).2 (fun hk => hnin (List.mem_cons_of_mem _ hk)))).1
        · rcases passA_cons_keep_parts env tbl uid keys s kv0 hf hemp' hre with
            ⟨hp1, -, -, -⟩
          rw [hp1]
          have hany : s.any (fun kv => kv.1 = uid) = true :=
            List.any_eq_true.mpr
              ⟨kv0, List.mem_of_find?_eq_some hf, by simpa using hkey⟩
          have hndset : ((settingsSet uid (passAEntries env tbl uid kv0.2).1
              s).map Prod.fst).Nodup := by
            rw [map_fst_settingsSet_present hany]
            exact hnd
          rcases ih _ hndset with ⟨ih1, ih2⟩
          have hkeepSet : keyClean tbl (uid, (passAEntries env tbl uid kv0.2).1) := by
            refine ⟨hre, ?_⟩
            intro e he
            have he' : e ∈ (passAEntries env tbl uid kv0.2).1 := he
            rw [passAEntries_fst] at he'
            have hd := List.of_mem_filter he'
            show entryAction tbl uid e = EntryAction.keep
            exact of_decide_eq_true hd
          refine ⟨ih1, fun kv hkv => ⟨?_, ?_⟩⟩
          · intro hin
            rcases List.mem_cons.mp hin with hk | hk
            · by_cases hks : kv.1 ∈ keys
              · exact (ih2 kv hkv).1 hks
              · rcases mem_settingsSet ((ih2 kv hkv).2 hks) with rfl | ⟨-, hku⟩
                · exact hkeepSet
                · exact absurd (by simpa using hk) hku
            · exact (ih2 kv hkv).1 hk
          · intro hnin
            rcases mem_settingsSet
                ((ih2 kv hkv).2 (fun hk => hnin (List.mem_cons_of_mem _ hk)))
              with rfl | ⟨hks, -⟩
            · exact absurd (List.mem_cons_self _ _) hnin
            · exact hks

/-- Pass A over a store whose every key is well-formed drops nothing and
deletes nothing: the settings come out unchanged, no message deletion is
attempted and no key is removed; every rewrite re-writes a pair that is
already stored. -/
theorem passA_noop (env : SyncEnv) (tbl : VoucherTable) :
    ∀ (keys : List Int) (s : List (Int × List VEntry)),
      (s.map Prod.fst).Nodup →
      (∀ kv ∈ s, keyClean tbl kv) →
      (passA env tbl keys s).1 = s ∧
      (passA env tbl keys s).2.1 = [] ∧
      (passA env tbl keys s).2.2.2 = [] ∧
      ∀ w ∈ (passA env tbl keys s).2.2.1, w ∈ s := by
  intro keys
  induction keys with
  | nil =>
    intro s hnd hcl
    exact ⟨rfl, rfl, rfl, fun w hw => absurd hw (List.not_mem_nil w)⟩
  | cons uid keys ih =>
    intro s hnd hcl
    cases hf : s.find? (fun kv => kv.1 = uid)
    · rw [passA_cons_nofind env tbl uid keys s hf]
      exact ih s hnd hcl
    · rename_i kv
      have hkv := List.mem_of_find?_eq_some hf
      have hkey : kv.1 = uid := by simpa using List.find?_some hf
      rcases hcl kv hkv with ⟨hne2, hkeep⟩
      have hrem : (passAEntries env tbl uid kv.2).1 = kv.2 := by
        rw [passAEntries_fst]
        apply List.filter_eq_self.mpr
        intro e he
        have := hkeep e he
        rw [hkey] at this
        simpa using this
      have hdels : (passAEntries env tbl uid kv.2).2 = [] := by
        rw [passAEntries_snd]
        apply List.filterMap_eq_nil_iff.mpr
        intro e he
        have hk := hkeep e he
        rw [hkey] at hk
        rw [hk]
      have hempty : kv.2.isEmpty = false := by
        cases hc2 : kv.2
        · exact absurd hc2 hne2
        · rfl
      have hre : ¬ (passAEntries env tbl uid kv.2).1 = [] := by
        rw [hrem]; exact hne2
      have hkvpair : kv = (uid, kv.2) := Prod.ext hkey rfl
      have hset : settingsSet uid (passAEntries env tbl uid kv.2).1 s = s := by
        rw [hrem]
        exact settingsSet_self uid kv.2 s hnd (hkvpair ▸ hkv)
      rcases passA_cons_keep_parts env tbl uid keys s kv hf hempty hre with
        ⟨hp1, hp2, hp3, hp4⟩
      rw [hset] at hp1 hp2 hp3 hp4
      rcases ih s hnd hcl with ⟨ih1, ih2, ih3, ih4⟩
      refine ⟨by rw [hp1, ih1], by rw [hp2, hdels, ih2, List.nil_append],
        by rw [hp4, ih3], ?_⟩
      intro w hw
      rw [hp3, hrem] at hw
      rcases List.mem_cons.mp hw with rfl | hw'
      · exact hkvpair ▸ hkv
      · exact ih4 w hw'

/-- Pass B skips a voucher without a holder. -/
theorem passB_cons_noUser (env : SyncEnv) (v : Voucher) (vs : List Voucher)
    (s : List (Int × List VEntry)) (huser : v.user_id = none) :
    passB env (v :: vs) s = passB env vs s := by
  simp only [passB, huser]

/-- Pass B skips a voucher whose stripped code is empty. -/
theorem passB_cons_emptyCode (env : SyncEnv) (v : Voucher) (vs : List Voucher)
    (s : List (Int × List VEntry)) (uid : Int)
    (huser : v.user_id = some uid) (hcode : pyStrip v.code = "") :
    passB env (v :: vs) s = passB env vs s := by
  simp only [passB, huser]
  rw [if_pos hcode]

/-- Pass B skips a voucher whose code is already tracked for its holder. -/
theorem passB_cons_present (env : SyncEnv) (v : Voucher) (vs : List Voucher)
    (s : List (Int × List VEntry)) (uid : Int)
    (huser : v.user_id = some uid) (hcode : ¬ pyStrip v.code = "")
    (hany : (settingsGet s uid).any
      (fun e => pyStrip e.code = pyStrip v.code) = true) :
    passB env (v :: vs) s = passB env vs s := by
  simp only [passB, huser]
  rw [if_neg hcode, if_pos hany]

/-- Pass B on an untracked voucher with a successful send: the entry is
merged and persisted, and the attempt and write are recorded. -/
theorem passB_cons_send (env : SyncEnv) (v : Voucher) (vs : List Voucher)
    (s : List (Int × List VEntry)) (uid : Int)
    (huser : v.user_id = some uid) (hcode : ¬ pyStrip v.code = "")
    (hany : ¬ (settingsGet s uid).any
      (fun e => pyStrip e.code = pyStrip v.code) = true)
    (hok : env.sendOk uid (pyStrip v.code) = true) :
    (passB env (v :: vs) s).1 =
      (passB env vs (settingsSet uid (settingsGet s uid ++
        [⟨pyStrip v.code, env.newMsgId uid (pyStrip v.code)⟩]) s)).1 ∧
    (passB env (v :: vs) s).2.1 =
      (uid, pyStrip v.code) ::
        (passB env vs (settingsSet uid (settingsGet s uid ++
          [⟨pyStrip v.code, env.newMsgId uid (pyStrip v.code)⟩]) s)).2.1 ∧
    (passB env (v :: vs) s).2.2 =
      (uid, settingsGet s uid ++
        [⟨pyStrip v.code, env.newMsgId uid (pyStrip v.code)⟩]) ::
        (passB env vs (settingsSet uid (settingsGet s uid ++
          [⟨pyStrip v.code, env.newMsgId uid (pyStrip v.code)⟩]) s)).2.2 := by
  have heq : passB env (v :: vs) s =
      ((passB env vs (settingsSet uid (settingsGet s uid ++
          [⟨pyStrip v.code, env.newMsgId uid (pyStrip v.code)⟩]) s)).1,
       (uid, pyStrip v.code) ::
         (passB env vs (settingsSet uid (settingsGet s uid ++
           [⟨pyStrip v.code, env.newMsgId uid (pyStrip v.code)⟩]) s)).2.1,
       (uid, settingsGet s uid ++
         [⟨pyStrip v.code, env.newMsgId uid (pyStrip v.code)⟩]) ::
         (passB env vs (settingsSet uid (settingsGet s uid ++
           [⟨pyStrip v.code, env.newMsgId uid (pyStrip v.code)⟩]) s)).2.2) := by
    simp only [passB, huser]
    rw [if_neg hcode, if_neg hany, if_pos hok]
  rw [heq]
  exact ⟨rfl, rfl, rfl⟩

/-- Pass B over a list of vouchers all of whose codes are already tracked
for their holders does nothing: no send attempt, no write, settings
unchanged. -/
theorem passB_noop (env : SyncEnv) :
    ∀ (vs : List Voucher) (s : List (Int × List VEntry)),
      (∀ v ∈ vs, ∀ uid, v.user_id = some uid → ¬ pyStrip v.code = "" →
        (settingsGet s uid).any
          (fun e => pyStrip e.code = pyStrip v.code) = true) →
      passB env vs s = (s, [], []) := by
  intro vs
  induction vs with
  | nil => intro s _; rfl
  | cons v vs ih =>
    intro s h
    have htail : ∀ w ∈ vs, ∀ uid, w.user_id = some uid →
        ¬ pyStrip w.code = "" →
        (settingsGet s uid).any
          (fun e => pyStrip e.code = pyStrip w.code) = true :=
      fun w hw => h w (List.mem_cons_of_mem _ hw)
    cases huser : v.user_id
    · rw [passB_cons_noUser env v vs s huser]
      exact ih s htail
    · rename_i uid
      by_cases hcode : pyStrip v.code = ""
      · rw [passB_cons_emptyCode env v vs s uid huser hcode]
        exact ih s htail
      · rw [passB_cons_present env v vs s uid huser hcode
          (h v (List.mem_cons_self _ _) uid huser hcode)]
        exact ih s htail

/-- Entries read back from a well-formed store are kept entries. -/
theorem settingsGet_keep {tbl : VoucherTable} {s : List (Int × List VEntry)}
    {uid : Int} (hcl : ∀ kv ∈ s, keyClean tbl kv) :
    ∀ e ∈ settingsGet s uid, entryAction tbl uid e = .keep := by
  intro e he
  unfold settingsGet at he
  cases hf : s.find? (fun kv => kv.1 = uid)
  · rw [hf] at he; cases he
  · rename_i kv
    rw [hf] at he
    have hkey : kv.1 = uid := by simpa using List.find?_some hf
    have := (hcl kv (List.mem_of_find?_eq_some hf)).2 e he
    rw [hkey] at this
    exact this

theorem not_mem_map_fst_of_not_any {uid : Int}
    {s : List (Int × List VEntry)}
    (h : ¬ s.any (fun kv => kv.1 = uid) = true) :
    uid ∉ s.map Prod.fst := by
  intro hm
  rcases List.mem_map.mp hm with ⟨kv, hkv, hk⟩
  exact h (List.any_eq_true.mpr ⟨kv, hkv, by simpa using hk⟩)

/-- The entry Pass B records for an active voucher is one Pass A keeps. -/
theorem entryAction_new_entry {tbl : VoucherTable} {v : Voucher} {uid : Int}
    (hndc : (tbl.map Voucher.code).Nodup) (hv : v ∈ tbl)
    (hcl : pyStrip v.code = v.code)
    (huser : v.user_id = some uid) (hcode : ¬ pyStrip v.code = "")
    (hact : v.use_count < v.total_games) (mid : Int) (hm : 0 < mid) :
    entryAction tbl uid ⟨pyStrip v.code, mid⟩ = .keep := by
  have hstrip : pyStrip (pyStrip v.code) = v.code := by rw [hcl, hcl]
  simp only [entryAction]
  rw [hstrip]
  have hvc : ¬ v.code = "" := by rw [← hcl]; exact hcode
  rw [if_neg (by
    simp only [Bool.or_eq_true, decide_eq_true_eq, not_or]
    exact ⟨hvc, by simpa using not_le.mpr hm⟩)]
  rw [lookupVoucher_self hndc hv huser]
  change (if v.use_count ≥ orOne v.total_games then _ else _) = _
  have hact' : v.use_count < orOne v.total_games := by
    unfold orOne; split <;> omega
  rw [if_neg (not_le.mpr hact')]

/-- Pass B preserves key uniqueness and well-formedness, only ever grows
the tracked entry sets, and ends with every active voucher's code tracked
for its holder. -/
theorem passB_establishes (env : SyncEnv) (tbl : VoucherTable)
    (hsend : ∀ u c, env.sendOk u c = true)
    (hmsg : ∀ u c, 0 < env.newMsgId u c)
    (hndc : (tbl.map Voucher.code).Nodup)
    (hclean : ∀ v ∈ tbl, pyStrip v.code = v.code) :
    ∀ (vs : List Voucher) (s : List (Int × List VEntry)),
      (∀ v ∈ vs, v ∈ tbl ∧ v.use_count < v.total_games) →
      (s.map Prod.fst).Nodup →
      (∀ kv ∈ s, keyClean tbl kv) →
      ((passB env vs s).1.map Prod.fst).Nodup ∧
      (∀ kv ∈ (passB env vs s).1, keyClean tbl kv) ∧
      (∀ uid e, e ∈ settingsGet s uid →
        e ∈ settingsGet (passB env vs s).1 uid) ∧
      (∀ v ∈ vs, ∀ uid, v.user_id = some uid → ¬ pyStrip v.code = "" →
        ∃ e ∈ settingsGet (passB env vs s).1 uid,
          pyStrip e.code = pyStrip v.code) := by
  intro vs
  induction vs with
  | nil =>
    intro s _ hnd hcl
    exact ⟨hnd, hcl, fun uid e he => he,
      fun v hv => absurd hv (List.not_mem_nil v)⟩
  | cons v vs ih =>
    intro s hvs hnd hcl
    have hvs' : ∀ w ∈ vs, w ∈ tbl ∧ w.use_count < w.total_games :=
      fun w hw => hvs w (List.mem_cons_of_mem _ hw)
    cases huser : v.user_id
    · rw [passB_cons_noUser env v vs s huser]
      rcases ih s hvs' hnd hcl with ⟨h1, h2, h3, h4⟩
      refine ⟨h1, h2, h3, ?_⟩
      intro w hw uid' hu hc
      rcases List.mem_cons.mp hw with rfl | hw'
      · rw [huser] at hu; cases hu
      · exact h4 w hw' uid' hu hc
    · rename_i uid
      by_cases hcode : pyStrip v.code = ""
      · rw [passB_cons_emptyCode env v vs s uid huser hcode]
        rcases ih s hvs' hnd hcl with ⟨h1, h2, h3, h4⟩
        refine ⟨h1, h2, h3, ?_⟩
        intro w hw uid' hu hc
        rcases List.mem_cons.mp hw with rfl | hw'
        · exact absurd hcode hc
        · exact h4 w hw' uid' hu hc
      · by_cases hany : (settingsGet s uid).any
            (fun e => pyStrip e.code = pyStrip v.code) = true
        · rw [passB_cons_present env v vs s uid huser hcode hany]
          rcases ih s hvs' hnd hcl with ⟨h1, h2, h3, h4⟩
          refine ⟨h1, h2, h3, ?_⟩
          intro w hw uid' hu hc
          rcases List.mem_cons.mp hw with rfl | hw'
          · rw [huser] at hu
            injection hu with hu
            subst hu
            rcases List.any_eq_true.mp hany with ⟨e, he, hpe⟩
            exact ⟨e, h3 uid e he, by simpa using hpe⟩
          · exact h4 w hw' uid' hu hc
        · rcases passB_cons_send env v vs s uid huser hcode hany
            (hsend uid (pyStrip v.code)) with ⟨hp1, -, -⟩
          rcases hvs v (List.mem_cons_self _ _) with ⟨hvtbl, hvact⟩
          have hndset : ((settingsSet uid (settingsGet s uid ++
              [⟨pyStrip v.code, env.newMsgId uid (pyStrip v.code)⟩])
              s).map Prod.fst).Nodup := by
            by_cases hpres : s.any (fun kv => kv.1 = uid) = true
            · rw [map_fst_settingsSet_present hpres]; exact hnd
            · rw [map_fst_settingsSet_absent hpres, List.nodup_append]
              refine ⟨hnd, List.nodup_singleton _, ?_⟩
              intro a ha hb
              rcases List.mem_singleton.mp hb with rfl
              exact not_mem_map_fst_of_not_any hpres ha
          have hkeepentry : entryAction tbl uid
              ⟨pyStrip v.code, env.newMsgId uid (pyStrip v.code)⟩ = .keep :=
            entryAction_new_entry hndc hvtbl (hclean v hvtbl) huser hcode
              hvact _ (hmsg uid (pyStrip v.code))
          have hclset : ∀ kv ∈ settingsSet uid (settingsGet s uid ++
              [⟨pyStrip v.code, env.newMsgId uid (pyStrip v.code)⟩]) s,
              keyClean tbl kv := by
            intro kv hkv
            rcases mem_settingsSet hkv with rfl | ⟨hks, -⟩
            · constructor
              · show settingsGet s uid ++
                  [⟨pyStrip v.code, env.newMsgId uid (pyStrip v.code)⟩] ≠ []
                intro hnil
                have := (List.append_eq_nil.mp hnil).2
                cases this
              · intro e he
                have he' : e ∈ settingsGet s uid ++
                    [⟨pyStrip v.code, env.newMsgId uid (pyStrip v.code)⟩] := he
                rcases List.mem_append.mp he' with hpe | hee
                · exact settingsGet_keep hcl e hpe
                · rcases List.mem_singleton.mp hee with rfl
                  exact hkeepentry
            · exact hcl kv hks
          rcases ih (settingsSet uid (settingsGet s uid ++
              [⟨pyStrip v.code, env.newMsgId uid (pyStrip v.code)⟩]) s)
            hvs' hndset hclset with ⟨h1, h2, h3, h4⟩
          have hmono : ∀ uid' e, e ∈ settingsGet s uid' →
              e ∈ settingsGet (passB env vs (settingsSet uid
                (settingsGet s uid ++
                  [⟨pyStrip v.code, env.newMsgId uid (pyStrip v.code)⟩])
                s)).1 uid' := by
            intro uid' e he
            apply h3
            by_cases hu' : uid' = uid
            · subst hu'
              rw [settingsGet_set_self]
              exact List.mem_append_left _ he
            · rw [settingsGet_set_ne uid uid' _ hu']
              exact he
          refine ⟨by rw [hp1]; exact h1, by rw [hp1]; exact h2,
            by rw [hp1]; exact hmono, ?_⟩
          intro w hw uid' hu hc
          rw [hp1]
          rcases List.mem_cons.mp hw with rfl | hw'
          · rw [huser] at hu
            injection hu with hu
            subst hu
            refine ⟨⟨pyStrip w.code, env.newMsgId uid (pyStrip w.code)⟩,
              ?_, ?_⟩
            · apply h3
              rw [settingsGet_set_self]
              exact List.mem_append_right _ (List.mem_singleton_self _)
            · show pyStrip (pyStrip w.code) = pyStrip w.code
              rw [hclean w hvtbl]
              exact hclean w hvtbl
          · exact h4 w hw' uid' hu hc

theorem syncState_ext {a b : SyncState} (h1 : a.settings = b.settings)
    (h2 : a.vouchers = b.vouchers) : a = b := by
  cases a; cases b
  simp only at h1 h2
  rw [h1, h2]

theorem run_vouchers (env : SyncEnv) (st : SyncState) :
    (run_voucher_sync_once env st).1.vouchers = st.vouchers := rfl

theorem run_settings (env : SyncEnv) (st : SyncState) :
    (run_voucher_sync_once env st).1.settings =
      (passB env
        (sortByIdDesc (st.vouchers.filter
          (fun v => v.use_count < v.total_games)))
        (passA env st.vouchers (st.settings.map Prod.fst) st.settings).1).1 :=
  rfl

theorem run_sends (env : SyncEnv) (st : SyncState) :
    (run_voucher_sync_once env st).2.sends =
      (passB env
        (sortByIdDesc (st.vouchers.filter
          (fun v => v.use_count < v.total_games)))
        (passA env st.vouchers (st.settings.map Prod.fst) st.settings).1).2.1 :=
  rfl

theorem run_msgDeletes (env : SyncEnv) (st : SyncState) :
    (run_voucher_sync_once env st).2.msgDeletes =
      (passA env st.vouchers (st.settings.map Prod.fst) st.settings).2.1 :=
  rfl

theorem run_settingsDels (env : SyncEnv) (st : SyncState) :
    (run_voucher_sync_once env st).2.settingsDels =
      (passA env st.vouchers (st.settings.map Prod.fst) st.settings).2.2.2 :=
  rfl

theorem run_settingsSets (env : SyncEnv) (st : SyncState) :
    (run_voucher_sync_once env st).2.settingsSets =
      (passA env st.vouchers (st.settings.map Prod.fst) st.settings).2.2.1 ++
      (passB env
        (sortByIdDesc (st.vouchers.filter
          (fun v => v.use_count < v.total_games)))
        (passA env st.vouchers (st.settings.map Prod.fst) st.settings).1).2.2 :=
  rfl

/-- After one full iteration the tracking store is well-formed and covers
every active, held, nonblank-coded voucher. -/
theorem run_establishes (env : SyncEnv) (st0 : SyncState)
    (hsend : ∀ u c, env.sendOk u c = true)
    (hmsg : ∀ u c, 0 < env.newMsgId u c)
    (hndk : (st0.settings.map Prod.fst).Nodup)
    (hndc : (st0.vouchers.map Voucher.code).Nodup)
    (hclean : ∀ v ∈ st0.vouchers, pyStrip v.code = v.code) :
    ((run_voucher_sync_once env st0).1.settings.map Prod.fst).Nodup ∧
    (∀ kv ∈ (run_voucher_sync_once env st0).1.settings,
      keyClean st0.vouchers kv) ∧
    (∀ v ∈ st0.vouchers, v.use_count < v.total_games →
      ∀ uid, v.user_id = some uid → ¬ pyStrip v.code = "" →
      ∃ e ∈ settingsGet (run_voucher_sync_once env st0).1.settings uid,
        pyStrip e.code = pyStrip v.code) := by
  rcases passA_establishes env st0.vouchers (st0.settings.map Prod.fst)
    st0.settings hndk with ⟨ha1, ha2⟩
  have hclA : ∀ kv ∈ (passA env st0.vouchers (st0.settings.map Prod.fst)
      st0.settings).1, keyClean st0.vouchers kv := by
    intro kv hkv
    by_cases hk : kv.1 ∈ st0.settings.map Prod.fst
    · exact (ha2 kv hkv).1 hk
    · exact absurd (List.mem_map.mpr ⟨kv, (ha2 kv hkv).2 hk, rfl⟩) hk
  have hactive : ∀ w ∈ sortByIdDesc (st0.vouchers.filter
      (fun v => v.use_count < v.total_games)),
      w ∈ st0.vouchers ∧ w.use_count < w.total_games := by
    intro w hw
    rw [mem_sortByIdDesc] at hw
    rcases List.mem_filter.mp hw with ⟨hm, hf⟩
    exact ⟨hm, by simpa using hf⟩
  rcases passB_establishes env st0.vouchers hsend hmsg hndc hclean
    (sortByIdDesc (st0.vouchers.filter
      (fun v => v.use_count < v.total_games)))
    (passA env st0.vouchers (st0.settings.map Prod.fst) st0.settings).1
    hactive ha1 hclA with ⟨hb1, hb2, hb3, hb4⟩
  rw [run_settings]
  refine ⟨hb1, hb2, ?_⟩
  intro v hv hact uid huser hcode
  exact hb4 v (by
      rw [mem_sortByIdDesc]
      exact List.mem_filter.mpr ⟨hv, by simpa using hact⟩)
    uid huser hcode

/-- C6 counterexample: one active voucher tracked after the first run; the
second run performs no send, no message deletion and no key deletion, but
still issues a tracking-state write (re-persisting the unchanged entry
list), so the second run is not free of writes. -/
theorem C6_counterexample :
    (run_voucher_sync_once
        ⟨fun _ _ => true, fun _ _ => 7, fun _ _ => true⟩
        (run_voucher_sync_once
          ⟨fun _ _ => true, fun _ _ => 7, fun _ _ => true⟩
          ⟨[], [wv1]⟩).1).2.sends = [] ∧
    (run_voucher_sync_once
        ⟨fun _ _ => true, fun _ _ => 7, fun _ _ => true⟩
        (run_voucher_sync_once
          ⟨fun _ _ => true, fun _ _ => 7, fun _ _ => true⟩
          ⟨[], [wv1]⟩).1).2.msgDeletes = [] ∧
    (run_voucher_sync_once
        ⟨fun _ _ => true, fun _ _ => 7, fun _ _ => true⟩
        (run_voucher_sync_once
          ⟨fun _ _ => true, fun _ _ => 7, fun _ _ => true⟩
          ⟨[], [wv1]⟩).1).2.settingsSets =
      [(42, [⟨"0001", 7⟩])] ∧
    ¬ (run_voucher_sync_once
        ⟨fun _ _ => true, fun _ _ => 7, fun _ _ => true⟩
        (run_voucher_sync_once
          ⟨fun _ _ => true, fun _ _ => 7, fun _ _ => true⟩
          ⟨[], [wv1]⟩).1).2.settingsSets = [] := by
  refine ⟨by decide, by decide, by decide, by decide⟩

/-- C6 amended: with a reachable environment (sends succeed, message ids
positive, settings keys unique, voucher codes unique and whitespace-free),
the second of two runs over unchanged voucher state performs zero external
sends, zero external message deletions and zero tracking-key deletions,
and leaves the tracking state exactly as the first run left it — but it
does re-issue tracking-state writes, each rewriting a (key, value) pair the
store already holds, so "zero additional writes" does not hold as stated. -/
theorem C6_idempotent_amended (env : SyncEnv) (st0 : SyncState)
    (hsend : ∀ u c, env.sendOk u c = true)
    (hmsg : ∀ u c, 0 < env.newMsgId u c)
    (hndk : (st0.settings.map Prod.fst).Nodup)
    (hndc : (st0.vouchers.map Voucher.code).Nodup)
    (hclean : ∀ v ∈ st0.vouchers, pyStrip v.code = v.code) :
    (run_voucher_sync_once env
      (run_voucher_sync_once env st0).1).2.sends = [] ∧
    (run_voucher_sync_once env
      (run_voucher_sync_once env st0).1).2.msgDeletes = [] ∧
    (run_voucher_sync_once env
      (run_voucher_sync_once env st0).1).2.settingsDels = [] ∧
    (run_voucher_sync_once env
      (run_voucher_sync_once env st0).1).1 =
      (run_voucher_sync_once env st0).1 ∧
    ∀ w ∈ (run_voucher_sync_once env
      (run_voucher_sync_once env st0).1).2.settingsSets,
      w ∈ (run_voucher_sync_once env st0).1.settings := by
  rcases run_establishes env st0 hsend hmsg hndk hndc hclean with
    ⟨hnd1, hcl1, hi3⟩
  have hva : (run_voucher_sync_once env st0).1.vouchers = st0.vouchers := rfl
  have hcl1' : ∀ kv ∈ (run_voucher_sync_once env st0).1.settings,
      keyClean (run_voucher_sync_once env st0).1.vouchers kv := by
    rw [hva]; exact hcl1
  rcases passA_noop env (run_voucher_sync_once env st0).1.vouchers
    ((run_voucher_sync_once env st0).1.settings.map Prod.fst)
    (run_voucher_sync_once env st0).1.settings hnd1 hcl1' with
    ⟨ha1, ha2, ha3, ha4⟩
  have hBhyp : ∀ v ∈ sortByIdDesc
      ((run_voucher_sync_once env st0).1.vouchers.filter
        (fun v => v.use_count < v.total_games)),
      ∀ uid, v.user_id = some uid → ¬ pyStrip v.code = "" →
      ((settingsGet (passA env (run_voucher_sync_once env st0).1.vouchers
        ((run_voucher_sync_once env st0).1.settings.map Prod.fst)
        (run_voucher_sync_once env st0).1.settings).1 uid).any
          (fun e => pyStrip e.code = pyStrip v.code)) = true := by
    intro v hv uid huser hcode
    rw [ha1]
    rw [mem_sortByIdDesc] at hv
    rcases List.mem_filter.mp hv with ⟨hm, hf⟩
    rw [hva] at hm
    rcases hi3 v hm (by simpa using hf) uid huser hcode with ⟨e, he, hpe⟩
    exact List.any_eq_true.mpr ⟨e, he, by simpa using hpe⟩
  have hBnoop := passB_noop env (sortByIdDesc
      ((run_voucher_sync_once env st0).1.vouchers.filter
        (fun v => v.use_count < v.total_games)))
    (passA env (run_voucher_sync_once env st0).1.vouchers
      ((run_voucher_sync_once env st0).1.settings.map Prod.fst)
      (run_voucher_sync_once env st0).1.settings).1 hBhyp
  refine ⟨?_, ?_, ?_, ?_, ?_⟩
  · rw [run_sends, hBnoop]
  · rw [run_msgDeletes, ha2]
  · rw [run_settingsDels, ha3]
  · exact syncState_ext (by rw [run_settings, hBnoop, ha1]) rfl
  · intro w hw
    rw [run_settingsSets, hBnoop] at hw
    simp only [List.append_nil] at hw
    exact ha4 w hw

/-- Witness for C6's amended theorem at the counterexample's input: the
second run sends nothing, deletes nothing and removes no key, and its state
equals the first run's state. -/
theorem C6_idempotent_amended_witness :
    (run_voucher_sync_once
      (⟨fun _ _ => true, fun _ _ => 7, fun _ _ => true⟩ : SyncEnv)
      (run_voucher_sync_once
        (⟨fun _ _ => true, fun _ _ => 7, fun _ _ => true⟩ : SyncEnv)
        ⟨[], [wv1]⟩).1).2.sends = [] ∧
    (run_voucher_sync_once
      (⟨fun _ _ => true, fun _ _ => 7, fun _ _ => true⟩ : SyncEnv)
      (run_voucher_sync_once
        (⟨fun _ _ => true, fun _ _ => 7, fun _ _ => true⟩ : SyncEnv)
        ⟨[], [wv1]⟩).1).2.msgDeletes = [] ∧
    (run_voucher_sync_once
      (⟨fun _ _ => true, fun _ _ => 7, fun _ _ => true⟩ : SyncEnv)
      (run_voucher_sync_once
        (⟨fun _ _ => true, fun _ _ => 7, fun _ _ => true⟩ : SyncEnv)
        ⟨[], [wv1]⟩).1).2.settingsDels = [] ∧
    (run_voucher_sync_once
      (⟨fun _ _ => true, fun _ _ => 7, fun _ _ => true⟩ : SyncEnv)
      (run_voucher_sync_once
        (⟨fun _ _ => true, fun _ _ => 7, fun _ _ => true⟩ : SyncEnv)
        ⟨[], [wv1]⟩).1).1 =
      (run_voucher_sync_once
        (⟨fun _ _ => true, fun _ _ => 7, fun _ _ => true⟩ : SyncEnv)
        ⟨[], [wv1]⟩).1 ∧
    ∀ w ∈ (run_voucher_sync_once
      (⟨fun _ _ => true, fun _ _ => 7, fun _ _ => true⟩ : SyncEnv)
      (run_voucher_sync_once
        (⟨fun _ _ => true, fun _ _ => 7, fun _ _ => true⟩ : SyncEnv)
        ⟨[], [wv1]⟩).1).2.settingsSets,
      w ∈ (run_voucher_sync_once
        (⟨fun _ _ => true, fun _ _ => 7, fun _ _ => true⟩ : SyncEnv)
        ⟨[], [wv1]⟩).1.settings :=
  C6_idempotent_amended
    ⟨fun _ _ => true, fun _ _ => 7, fun _ _ => true⟩ ⟨[], [wv1]⟩
    (fun _ _ => rfl) (fun _ _ => show (0 : Int) < 7 by decide) (by decide)
    (by decide) (by decide)

end NoviyBot
